import Mathlib

/-! Prison video scanner worker.

A shallow embedding of `VideoScannerWorker::slotScanFrame`
(`src/scanner/videoscannerworker.cpp`) and theorems about it.

The function is embedded as explicit state passing over the local variables
`frame` and `zxRes`, together with the trace of calls made on the frame and on
the decode engine.  The collaborators that live outside the file (the ZXing
decode engine, `VideoScannerFrame::convertToImage`, `Format::toZXing`,
`Format::toFormat`, `TextUtfEncoding::ToUtf8`) are fields of `Env`, so every
theorem holds for all of them.  The small parts of Qt and ZXing whose
arithmetic the claims depend on (`QRect`, the scale/translate part of
`QTransform`, the stride defaults of `ZXing::ImageView`) are written out.
-/

namespace Prison

/-! ## Machine integers -/

/-- Largest value of a C++ `int` (`std::numeric_limits<int>::max()`). -/
def INT_MAX : Int := 2147483647

/-- Smallest value of a C++ `int` (`std::numeric_limits<int>::min()`). -/
def INT_MIN : Int := -2147483648

/-- Two's complement reduction of an integer to the range of a 32 bit `int`. -/
def wrapInt (v : Int) : Int := (v + 2147483648) % 4294967296 - 2147483648

/-- Values a C++ `int` can hold. -/
def isInt (v : Int) : Prop := INT_MIN ≤ v ∧ v ≤ INT_MAX

instance (v : Int) : Decidable (isInt v) := by unfold isInt; infer_instance

/-! ## Pixel format tags -/

/-- Enumerators of `QVideoFrame::PixelFormat` (Qt 5), the tags of the first switch. -/
inductive PixelFormat5 where
  | Format_Invalid
  | Format_ARGB32
  | Format_ARGB32_Premultiplied
  | Format_RGB32
  | Format_RGB24
  | Format_RGB565
  | Format_RGB555
  | Format_ARGB8565_Premultiplied
  | Format_BGRA32
  | Format_BGRA32_Premultiplied
  | Format_BGR32
  | Format_BGR24
  | Format_BGR565
  | Format_BGR555
  | Format_BGRA5658_Premultiplied
  | Format_AYUV444
  | Format_AYUV444_Premultiplied
  | Format_YUV444
  | Format_YUV420P
  | Format_YV12
  | Format_UYVY
  | Format_YUYV
  | Format_NV12
  | Format_NV21
  | Format_IMC1
  | Format_IMC2
  | Format_IMC3
  | Format_IMC4
  | Format_Y8
  | Format_Y16
  | Format_Jpeg
  | Format_CameraRaw
  | Format_AdobeDng
  | Format_ABGR32
  | Format_YUV422P
  | NPixelFormats
  | Format_User
  deriving DecidableEq, Repr

/-- Enumerators of `QVideoFrameFormat::PixelFormat` (Qt 6), the tags of the second switch. -/
inductive PixelFormat6 where
  | Format_Invalid
  | Format_ARGB8888
  | Format_ARGB8888_Premultiplied
  | Format_XRGB8888
  | Format_BGRA8888
  | Format_BGRA8888_Premultiplied
  | Format_BGRX8888
  | Format_ABGR8888
  | Format_XBGR8888
  | Format_RGBA8888
  | Format_RGBX8888
  | Format_AYUV
  | Format_AYUV_Premultiplied
  | Format_YUV420P
  | Format_YUV422P
  | Format_YV12
  | Format_UYVY
  | Format_YUYV
  | Format_NV12
  | Format_NV21
  | Format_IMC1
  | Format_IMC2
  | Format_IMC3
  | Format_IMC4
  | Format_Y8
  | Format_Y16
  | Format_P010
  | Format_P016
  | Format_SamplerExternalOES
  | Format_Jpeg
  | Format_SamplerRect
  deriving DecidableEq, Repr

/-- Tag returned by `frame.pixelFormat()`: the preprocessor selects one of the two
enumerations, `qt5` for `QT_VERSION < 6.0.0` and `qt6` otherwise. -/
inductive PixelFormat where
  | qt5 (tag : PixelFormat5)
  | qt6 (tag : PixelFormat6)
  deriving DecidableEq, Repr

/-! ## The sample descriptor (`ZXing::ImageView`) -/

/-- Layouts of `ZXing::ImageFormat` that the worker uses. -/
inductive ImageFormat where
  | Lum
  | RGB
  | BGR
  | RGBX
  | XRGB
  | BGRX
  | XBGR
  deriving DecidableEq, Repr

/-- Bytes per pixel of a layout, `ZXing::PixStride(format)`: the top byte of the
enumerator's value (`Lum = 0x01000000`, `RGB = 0x03000102`, `XRGB = 0x04010203`, ...). -/
def ImageFormat.PixStride : ImageFormat → Int
  | .Lum => 1
  | .RGB => 3
  | .BGR => 3
  | .RGBX => 4
  | .XRGB => 4
  | .BGRX => 4
  | .XBGR => 4

/-- Arguments of the `ZXing::ImageView` constructor as the worker writes them in a
braced initialiser: `data` is the address of the first sample, and a stride the
call leaves out is its C++ default `0`. -/
structure ImageView where
  data : Int
  width : Int
  height : Int
  format : ImageFormat
  rowStride : Int
  pixStride : Int
  deriving DecidableEq, Repr

/-- Pixel stride the engine uses: `pixStride ? pixStride : PixStride(format)`. -/
def ImageView.effPixStride (iv : ImageView) : Int :=
  if iv.pixStride ≠ 0 then iv.pixStride else iv.format.PixStride

/-- Row stride the engine uses: `rowStride ? rowStride : width * pixStride`. -/
def ImageView.effRowStride (iv : ImageView) : Int :=
  if iv.rowStride ≠ 0 then iv.rowStride else iv.width * iv.effPixStride

/-- Address of the first byte the engine reads for pixel `(x, y)`:
`data + y * rowStride + x * pixStride`. -/
def ImageView.addr (iv : ImageView) (x y : Int) : Int :=
  iv.data + y * iv.effRowStride + x * iv.effPixStride

/-! ## Frame, decode outcome, scan result -/

/-- Modelled from the spec: the class `VideoScannerFrame` (its header is not among the
sources), the Frame of the data model with its pixel buffer, declared pixel-format tag,
width, height, vertical-flip flag and symbology restriction set.  The fields are the
accessors `slotScanFrame` calls on its local `frame`: `pixelFormat()`, `bits()` (address
of the first byte of the mapped plane), `width()`, `height()`, `isVerticallyFlipped()`
and `formats()` (a flag set). -/
structure VideoScannerFrame where
  pixelFormat : PixelFormat
  bits : Int
  width : Int
  height : Int
  isVerticallyFlipped : Bool
  formats : Nat
  deriving DecidableEq, Repr

/-- Modelled from the spec: the constant `Format::NoFormat` (its header is not among the
sources), the empty restriction set and the symbology of a default result. -/
def Format.NoFormat : Nat := 0

/-- Decode status of a `ZXing::Result`. -/
inductive DecodeStatus where
  | NoError
  | NotFound
  | FormatError
  | ChecksumError
  deriving DecidableEq, Repr

/-- Integer point of a `ZXing::Position`. -/
structure PointI where
  x : Int
  y : Int
  deriving DecidableEq, Repr

/-- Four corners `p[0] .. p[3]` returned by `zxRes.position()`. -/
structure Position where
  p0 : PointI
  p1 : PointI
  p2 : PointI
  p3 : PointI
  deriving DecidableEq, Repr

/-- Corners in index order, the sequence the loop `for (int i = 0; i < 4; ++i)` visits. -/
def Position.corners (p : Position) : List PointI := [p.p0, p.p1, p.p2, p.p3]

/-- Every coordinate of the polygon is a value of type `int`. -/
def Position.isInt (p : Position) : Prop :=
  ∀ c ∈ p.corners, Prison.isInt c.x ∧ Prison.isInt c.y

instance (p : Position) : Decidable p.isInt := by unfold Position.isInt; infer_instance

/-- Decode outcome `ZXing::Result`: `text()` is a wide string, kept as the list of its
code units (character codes, so not negative); `position()` is the polygon; `format()`
is the symbology identifier of the engine. -/
structure ZXResult where
  status : DecodeStatus
  text : List Nat
  position : Position
  format : Nat
  deriving DecidableEq, Repr

/-- Outcome `ZXing::Result(status)` constructed from a status alone. -/
def ZXResult.ofStatus (s : DecodeStatus) : ZXResult :=
  { status := s, text := [], position := ⟨⟨0, 0⟩, ⟨0, 0⟩, ⟨0, 0⟩, ⟨0, 0⟩⟩, format := 0 }

/-- Validity of an outcome, `Result::isValid()`: the status is `NoError`. -/
def ZXResult.isValid (r : ZXResult) : Bool := r.status == DecodeStatus.NoError

/-- Hints passed to the engine; only `setFormats` is used. -/
structure DecodeHints where
  formats : Nat
  deriving DecidableEq, Repr

/-! ## Qt geometry: `QPoint`, `QRect`, `QTransform` -/

/-- Integer point `QPoint`. -/
structure QPoint where
  x : Int
  y : Int
  deriving DecidableEq, Repr

/-- Integer rectangle `QRect`, stored as Qt stores it: the coordinates of its
top-left pixel `(x1, y1)` and of its bottom-right pixel `(x2, y2)`, both inclusive. -/
structure QRect where
  x1 : Int
  y1 : Int
  x2 : Int
  y2 : Int
  deriving DecidableEq, Repr

/-- Default-constructed `QRect()`: the null rectangle `(0, 0, -1, -1)`. -/
def QRect.null : QRect := ⟨0, 0, -1, -1⟩

/-- Constructor `QRect(const QPoint &topLeft, const QPoint &bottomRight)`. -/
def QRect.ofPoints (topLeft bottomRight : QPoint) : QRect :=
  ⟨topLeft.x, topLeft.y, bottomRight.x, bottomRight.y⟩

/-- Constructor `QRect(int x, int y, int w, int h)`: `x2 = x + w - 1`, `y2 = y + h - 1`. -/
def QRect.ofSize (x y w h : Int) : QRect :=
  ⟨x, y, wrapInt (x + w - 1), wrapInt (y + h - 1)⟩

/-- Accessor `QRect::x()`. -/
def QRect.x (r : QRect) : Int := r.x1

/-- Accessor `QRect::y()`. -/
def QRect.y (r : QRect) : Int := r.y1

/-- Accessor `QRect::left()`. -/
def QRect.left (r : QRect) : Int := r.x1

/-- Accessor `QRect::top()`. -/
def QRect.top (r : QRect) : Int := r.y1

/-- Accessor `QRect::right()`. -/
def QRect.right (r : QRect) : Int := r.x2

/-- Accessor `QRect::bottom()`. -/
def QRect.bottom (r : QRect) : Int := r.y2

/-- Accessor `QRect::topLeft()`. -/
def QRect.topLeft (r : QRect) : QPoint := ⟨r.x1, r.y1⟩

/-- Accessor `QRect::bottomRight()`. -/
def QRect.bottomRight (r : QRect) : QPoint := ⟨r.x2, r.y2⟩

/-- Accessor `QRect::width()`: `x2 - x1 + 1`. -/
def QRect.width (r : QRect) : Int := wrapInt (r.x2 - r.x1 + 1)

/-- Accessor `QRect::height()`: `y2 - y1 + 1`. -/
def QRect.height (r : QRect) : Int := wrapInt (r.y2 - r.y1 + 1)

/-- Method `QRect::translated(dx, dy)`. -/
def QRect.translated (r : QRect) (dx dy : Int) : QRect :=
  ⟨wrapInt (r.x1 + dx), wrapInt (r.y1 + dy), wrapInt (r.x2 + dx), wrapInt (r.y2 + dy)⟩

/-- Rounding `qRound` of a real number to `int`, on the values that occur here: every
matrix entry is an integer, so every product and sum `mapRect` rounds is an integer
that a `double` holds exactly, and rounding leaves only the conversion to `int`. -/
def qRound (v : Int) : Int := wrapInt v

/-- The part of `QTransform` that scalings and translations reach: the matrix
`[[m11, 0, 0], [0, m22, 0], [dx, dy, 1]]`. -/
structure QTransform where
  m11 : Int
  m22 : Int
  dx : Int
  dy : Int
  deriving DecidableEq, Repr

/-- Default-constructed `QTransform`, the identity. -/
def QTransform.identity : QTransform := ⟨1, 1, 0, 0⟩

/-- Method `QTransform::scale(sx, sy)`: the diagonal is multiplied, the new scaling is
applied before the transformation already held. -/
def QTransform.scale (t : QTransform) (sx sy : Int) : QTransform :=
  { t with m11 := t.m11 * sx, m22 := t.m22 * sy }

/-- Method `QTransform::translate(dx, dy)`: `dx += dx * m11`, `dy += dy * m22`. -/
def QTransform.translate (t : QTransform) (dx dy : Int) : QTransform :=
  { t with dx := t.dx + dx * t.m11, dy := t.dy + dy * t.m22 }

/-- Method `QTransform::mapRect(const QRect &)` of Qt for the transformation types
`TxNone`, `TxTranslate` and `TxScale`.  Without scaling the rectangle is translated by
the rounded offsets.  With scaling, `x = qRound(m11 * rect.x() + dx)`,
`y = qRound(m22 * rect.y() + dy)`, `w = qRound(m11 * rect.width())`,
`h = qRound(m22 * rect.height())`; then `if (w < 0) { w = -w; x -= w; }` and
`if (h < 0) { h = -h; y -= h; }`, and the result is `QRect(x, y, w, h)`. -/
def QTransform.mapRect (t : QTransform) (rect : QRect) : QRect :=
  if t.m11 = 1 ∧ t.m22 = 1 then
    rect.translated (qRound t.dx) (qRound t.dy)
  else
    let x := qRound (t.m11 * rect.x + t.dx)
    let y := qRound (t.m22 * rect.y + t.dy)
    let w := qRound (t.m11 * rect.width)
    let h := qRound (t.m22 * rect.height)
    let x := if w < 0 then wrapInt (x - wrapInt (-w)) else x
    let w := if w < 0 then wrapInt (-w) else w
    let y := if h < 0 then wrapInt (y - wrapInt (-h)) else y
    let h := if h < 0 then wrapInt (-h) else h
    QRect.ofSize x y w h

/-! ## Scan result -/

/-- Text `QString`, held as the UTF-8 bytes it is built from. -/
structure QString where
  utf8 : List Nat
  deriving DecidableEq, Repr

/-- Conversion `QString::fromStdString` of a UTF-8 encoded `std::string`. -/
def QString.fromStdString (s : List Nat) : QString := ⟨s⟩

/-- Payload `QVariant content` of a scan result: unset, a text, or a byte array
(bytes as values `0 .. 255`). -/
inductive QVariant where
  | invalid
  | string (s : QString)
  | byteArray (b : List Nat)
  deriving DecidableEq, Repr

/-- Modelled from the spec: the class `ScanResultPrivate` (its header is not among the
sources), the Scan Result of the data model, with the three fields `slotScanFrame`
assigns: the payload `content`, the rectangle `boundingRect` and the symbology
`format`. -/
structure ScanResult where
  content : QVariant
  boundingRect : QRect
  format : Nat
  deriving DecidableEq, Repr

/-- Modelled from the spec: the default-constructed `ScanResult` (no payload, zero
rectangle, no symbology): an unset `QVariant`, the null `QRect()` and
`Format::NoFormat`. -/
def ScanResult.default : ScanResult :=
  { content := QVariant.invalid, boundingRect := QRect.null, format := Format.NoFormat }

/-- Payload classified as text. -/
def ScanResult.hasText (r : ScanResult) : Bool :=
  match r.content with
  | .string _ => true
  | _ => false

/-- Payload classified as binary. -/
def ScanResult.hasBinary (r : ScanResult) : Bool :=
  match r.content with
  | .byteArray _ => true
  | _ => false

/-! ## Collaborators and execution state -/

/-- Exception raised by a collaborator. -/
structure Fault where
  what : String
  deriving DecidableEq, Repr

/-- Collaborators of `slotScanFrame` that are not part of the file:
`ZXing::BarcodeFormats::all()`, `Format::toZXing`, `Format::toFormat`,
`ZXing::TextUtfEncoding::ToUtf8`, `VideoScannerFrame::convertToImage` (it updates the
frame) and `ZXing::ReadBarcode`.  The last two may raise. -/
structure Env where
  allFormats : Nat
  toZXing : Nat → Nat
  toFormat : Nat → Nat
  ToUtf8 : List Nat → List Nat
  convertToImage : VideoScannerFrame → Except Fault VideoScannerFrame
  ReadBarcode : ImageView → DecodeHints → Except Fault ZXResult

/-- Calls `slotScanFrame` makes on the frame and the engine, and the signal it emits. -/
inductive Call where
  | map
  | unmap
  | convertToImage
  | ReadBarcode (iv : ImageView) (hints : DecodeHints)
  | result (r : ScanResult)
  deriving DecidableEq, Repr

/-- Locals of `slotScanFrame` with the calls made so far, the exception that ended the
run (if one did) and the result emitted (if one was). -/
structure State where
  frame : VideoScannerFrame
  zxRes : ZXResult
  calls : List Call
  fault : Option Fault
  emitted : Option ScanResult
  deriving DecidableEq, Repr

/-- Statement `zxRes = ZXing::ReadBarcode(iv, hints);`. -/
def assignReadBarcode (env : Env) (hints : DecodeHints) (iv : ImageView) (s : State) : State :=
  match env.ReadBarcode iv hints with
  | .ok r => { s with zxRes := r, calls := s.calls ++ [Call.ReadBarcode iv hints] }
  | .error e => { s with calls := s.calls ++ [Call.ReadBarcode iv hints], fault := some e }

/-- Statement `frame.convertToImage();`. -/
def callConvertToImage (env : Env) (s : State) : State :=
  match env.convertToImage s.frame with
  | .ok f => { s with frame := f, calls := s.calls ++ [Call.convertToImage] }
  | .error e => { s with calls := s.calls ++ [Call.convertToImage], fault := some e }

/-- The two statements of a needs-conversion case: `frame.convertToImage();` followed by
`zxRes = ZXing::ReadBarcode({frame.bits(), frame.width(), frame.height(), Lum}, hints);`. -/
def convertThenRead (env : Env) (hints : DecodeHints) (s : State) : State :=
  let s1 := callConvertToImage env s
  if s1.fault.isSome then s1
  else assignReadBarcode env hints
    ⟨s1.frame.bits, s1.frame.width, s1.frame.height, .Lum, 0, 0⟩ s1

/-- The switch over `frame.pixelFormat()` compiled for Qt 5 (source lines 34 to 104). -/
def switchQt5 (env : Env) (hints : DecodeHints) (tag : PixelFormat5) (s : State) : State :=
  let frame := s.frame
  match tag with
  | .Format_Invalid | .NPixelFormats => s
  | .Format_ARGB32 | .Format_ARGB32_Premultiplied | .Format_RGB32 =>
    assignReadBarcode env hints ⟨frame.bits, frame.width, frame.height, .XRGB, 0, 0⟩ s
  | .Format_RGB24 =>
    assignReadBarcode env hints ⟨frame.bits, frame.width, frame.height, .RGB, 0, 0⟩ s
  | .Format_BGRA32 | .Format_BGRA32_Premultiplied | .Format_BGR32 =>
    assignReadBarcode env hints ⟨frame.bits, frame.width, frame.height, .BGRX, 0, 0⟩ s
  | .Format_ABGR32 =>
    assignReadBarcode env hints ⟨frame.bits, frame.width, frame.height, .XBGR, 0, 0⟩ s
  | .Format_BGR24 =>
    assignReadBarcode env hints ⟨frame.bits, frame.width, frame.height, .BGR, 0, 0⟩ s
  | .Format_AYUV444 | .Format_AYUV444_Premultiplied =>
    assignReadBarcode env hints ⟨frame.bits + 1, frame.width, frame.height, .Lum, 0, 4⟩ s
  | .Format_YUV444 =>
    assignReadBarcode env hints ⟨frame.bits, frame.width, frame.height, .Lum, 0, 3⟩ s
  | .Format_YUV420P | .Format_YUV422P | .Format_YV12 | .Format_NV12 | .Format_NV21
  | .Format_IMC1 | .Format_IMC2 | .Format_IMC3 | .Format_IMC4 =>
    assignReadBarcode env hints ⟨frame.bits, frame.width, frame.height, .Lum, 0, 0⟩ s
  | .Format_UYVY =>
    assignReadBarcode env hints ⟨frame.bits + 1, frame.width, frame.height, .Lum, 0, 2⟩ s
  | .Format_YUYV =>
    assignReadBarcode env hints ⟨frame.bits, frame.width, frame.height, .Lum, 0, 2⟩ s
  | .Format_Y8 =>
    assignReadBarcode env hints ⟨frame.bits, frame.width, frame.height, .Lum, 0, 0⟩ s
  | .Format_Y16 =>
    assignReadBarcode env hints ⟨frame.bits + 1, frame.width, frame.height, .Lum, 0, 1⟩ s
  | .Format_RGB565 | .Format_RGB555 | .Format_ARGB8565_Premultiplied | .Format_BGR565
  | .Format_BGR555 | .Format_BGRA5658_Premultiplied | .Format_Jpeg | .Format_CameraRaw
  | .Format_AdobeDng | .Format_User =>
    convertThenRead env hints s

/-- The switch over `frame.pixelFormat()` compiled for Qt 6 (source lines 106 to 167). -/
def switchQt6 (env : Env) (hints : DecodeHints) (tag : PixelFormat6) (s : State) : State :=
  let frame := s.frame
  match tag with
  | .Format_Invalid => s
  | .Format_ARGB8888 | .Format_ARGB8888_Premultiplied | .Format_XRGB8888 =>
    assignReadBarcode env hints ⟨frame.bits, frame.width, frame.height, .XRGB, 0, 0⟩ s
  | .Format_BGRA8888 | .Format_BGRA8888_Premultiplied | .Format_BGRX8888 =>
    assignReadBarcode env hints ⟨frame.bits, frame.width, frame.height, .BGRX, 0, 0⟩ s
  | .Format_ABGR8888 | .Format_XBGR8888 =>
    assignReadBarcode env hints ⟨frame.bits, frame.width, frame.height, .XBGR, 0, 0⟩ s
  | .Format_RGBA8888 | .Format_RGBX8888 =>
    assignReadBarcode env hints ⟨frame.bits, frame.width, frame.height, .RGBX, 0, 0⟩ s
  | .Format_AYUV | .Format_AYUV_Premultiplied =>
    assignReadBarcode env hints ⟨frame.bits + 1, frame.width, frame.height, .Lum, 0, 4⟩ s
  | .Format_YUV420P | .Format_YUV422P | .Format_YV12 | .Format_NV12 | .Format_NV21
  | .Format_IMC1 | .Format_IMC2 | .Format_IMC3 | .Format_IMC4 =>
    assignReadBarcode env hints ⟨frame.bits, frame.width, frame.height, .Lum, 0, 0⟩ s
  | .Format_UYVY =>
    assignReadBarcode env hints ⟨frame.bits + 1, frame.width, frame.height, .Lum, 0, 2⟩ s
  | .Format_YUYV =>
    assignReadBarcode env hints ⟨frame.bits, frame.width, frame.height, .Lum, 0, 2⟩ s
  | .Format_Y8 =>
    assignReadBarcode env hints ⟨frame.bits, frame.width, frame.height, .Lum, 0, 0⟩ s
  | .Format_Y16 =>
    assignReadBarcode env hints ⟨frame.bits + 1, frame.width, frame.height, .Lum, 0, 1⟩ s
  | .Format_P010 | .Format_P016 =>
    assignReadBarcode env hints ⟨frame.bits, frame.width, frame.height, .Lum, 0, 1⟩ s
  | .Format_Jpeg | .Format_SamplerExternalOES | .Format_SamplerRect =>
    convertThenRead env hints s

/-- The switch the build selects for the frame's tag. -/
def switchPixelFormat (env : Env) (hints : DecodeHints) (s : State) : State :=
  match s.frame.pixelFormat with
  | .qt5 tag => switchQt5 env hints tag s
  | .qt6 tag => switchQt6 env hints tag s

/-- Hints set up at lines 29 and 30: all symbologies when the frame carries no
restriction, the translated restriction otherwise. -/
def scanHints (env : Env) (frame : VideoScannerFrame) : DecodeHints :=
  ⟨if frame.formats = Format.NoFormat then env.allFormats else env.toZXing frame.formats⟩

/-- State when control reaches `frame.unmap()` at line 169 (or when an exception leaves
the function before): `zxRes` starts as `Result(DecodeStatus::FormatError)`, the frame
is mapped, the switch runs. -/
def decodeFrame (env : Env) (frame : VideoScannerFrame) : State :=
  switchPixelFormat env (scanHints env frame)
    { frame := frame, zxRes := ZXResult.ofStatus DecodeStatus.FormatError,
      calls := [Call.map], fault := none, emitted := none }

/-! ## Result processing (source lines 171 to 219) -/

/-- Local `hasWideChars`: some code unit of the text is `> 255`. -/
def hasWideChars (text : List Nat) : Bool :=
  text.any (fun c => decide (c > 255))

/-- Local `hasControlChars`: some code unit satisfies `c < 20 && c != 0x0a && c != 0x0d`. -/
def hasControlChars (text : List Nat) : Bool :=
  text.any (fun c => decide (c < 20) && c != 0x0a && c != 0x0d)

/-- The value assigned to `res->content`: the text re-encoded through `ToUtf8` when
`hasWideChars || !hasControlChars`, and otherwise a byte array of the size of the text
into which `std::copy` stores every code unit converted to `char`. -/
def scanContent (env : Env) (text : List Nat) : QVariant :=
  if hasWideChars text || !hasControlChars text then
    QVariant.string (QString.fromStdString (env.ToUtf8 text))
  else
    QVariant.byteArray (text.map (fun c => c % 256))

/-- Locals `x1, y1, x2, y2` of the bounding-rectangle loop. -/
structure Extent where
  x1 : Int
  y1 : Int
  x2 : Int
  y2 : Int
  deriving DecidableEq, Repr

/-- Body of the loop for one corner `p[i]`. -/
def Extent.step (e : Extent) (c : PointI) : Extent :=
  ⟨min e.x1 c.x, min e.y1 c.y, max e.x2 c.x, max e.y2 c.y⟩

/-- The loop over the four corners, from `x1 = y1 = INT_MAX` and `x2 = y2 = INT_MIN`. -/
def polygonExtent (p : Position) : Extent :=
  p.corners.foldl Extent.step ⟨INT_MAX, INT_MAX, INT_MIN, INT_MIN⟩

/-- Rectangle `QRect(QPoint(x1, y1), QPoint(x2, y2))` assigned at line 206. -/
def polygonRect (p : Position) : QRect :=
  let e := polygonExtent p
  QRect.ofPoints ⟨e.x1, e.y1⟩ ⟨e.x2, e.y2⟩

/-- Transformation built at lines 210 to 212: `t.scale(1, -1); t.translate(0, -frame.height());`. -/
def flipTransform (height : Int) : QTransform :=
  (QTransform.identity.scale 1 (-1)).translate 0 (wrapInt (-height))

/-- The value of `res->boundingRect` after lines 192 to 214. -/
def scanBoundingRect (frame : VideoScannerFrame) (p : Position) : QRect :=
  if frame.isVerticallyFlipped then (flipTransform frame.height).mapRect (polygonRect p)
  else polygonRect p

/-- The `ScanResult` built at lines 172 to 217 from the outcome and the frame. -/
def processResult (env : Env) (zxRes : ZXResult) (frame : VideoScannerFrame) : ScanResult :=
  if zxRes.isValid then
    { content := scanContent env zxRes.text,
      boundingRect := scanBoundingRect frame zxRes.position,
      format := env.toFormat zxRes.format }
  else ScanResult.default

/-- The whole of `VideoScannerWorker::slotScanFrame`.  An exception raised inside the
switch leaves the function at once; otherwise the frame is unmapped, the result is
built and `result(scanResult)` is emitted. -/
def slotScanFrame (env : Env) (frame : VideoScannerFrame) : State :=
  let s := decodeFrame env frame
  if s.fault.isSome then s
  else
    let scanResult := processResult env s.zxRes s.frame
    { s with calls := s.calls ++ [Call.unmap, Call.result scanResult],
             emitted := some scanResult }

/-! ## A concrete environment -/

/-- UTF-8 encoding of one code point. -/
def utf8EncodeUnit (c : Nat) : List Nat :=
  if c < 0x80 then [c]
  else if c < 0x800 then [0xC0 + c / 64, 0x80 + c % 64]
  else if c < 0x10000 then [0xE0 + c / 4096, 0x80 + c / 64 % 64, 0x80 + c % 64]
  else [0xF0 + c / 262144 % 8, 0x80 + c / 4096 % 64, 0x80 + c / 64 % 64, 0x80 + c % 64]

/-- An environment whose engine answers every call with the outcome `r`, whose
conversion leaves the frame as it is, and whose translations are the identity. -/
def Env.fixed (r : ZXResult) : Env :=
  { allFormats := 0x3FFFF,
    toZXing := fun f => f,
    toFormat := fun f => f,
    ToUtf8 := fun t => t.flatMap utf8EncodeUnit,
    convertToImage := fun f => Except.ok f,
    ReadBarcode := fun _ _ => Except.ok r }

/-- A frame of the given tag, size and orientation at address `0`. -/
def frameOf (tag : PixelFormat) (width height : Int) (flipped : Bool) : VideoScannerFrame :=
  { pixelFormat := tag, bits := 0, width := width, height := height,
    isVerticallyFlipped := flipped, formats := Format.NoFormat }

/-- A valid outcome with the given text and corners. -/
def validResult (text : List Nat) (p : Position) : ZXResult :=
  { status := DecodeStatus.NoError, text := text, position := p, format := 1 }

/-- The polygon `(2,5), (10,5), (10,20), (2,20)`. -/
def samplePolygon : Position := ⟨⟨2, 5⟩, ⟨10, 5⟩, ⟨10, 20⟩, ⟨2, 20⟩⟩

/-! ## Vocabulary of the statements -/

/-- A control character in the sense of the specification: a code unit below 32 other
than line feed (10) and carriage return (13). -/
def isControlChar (c : Nat) : Prop := c < 32 ∧ c ≠ 10 ∧ c ≠ 13

instance (c : Nat) : Decidable (isControlChar c) := by unfold isControlChar; infer_instance

/-- Smallest corner x of a polygon. -/
def Position.minX (p : Position) : Int := min (min p.p0.x p.p1.x) (min p.p2.x p.p3.x)

/-- Smallest corner y of a polygon. -/
def Position.minY (p : Position) : Int := min (min p.p0.y p.p1.y) (min p.p2.y p.p3.y)

/-- Largest corner x of a polygon. -/
def Position.maxX (p : Position) : Int := max (max p.p0.x p.p1.x) (max p.p2.x p.p3.x)

/-- Largest corner y of a polygon. -/
def Position.maxY (p : Position) : Int := max (max p.p0.y p.p1.y) (max p.p2.y p.p3.y)

/-- A magnitude below `2 ^ 30`: sums and differences of two such values are `int`s. -/
def isSmall (v : Int) : Prop := -1073741824 < v ∧ v < 1073741824

instance (v : Int) : Decidable (isSmall v) := by unfold isSmall; infer_instance

/-- Every coordinate of the polygon has a magnitude below `2 ^ 30`. -/
def Position.isSmall (p : Position) : Prop :=
  ∀ c ∈ p.corners, Prison.isSmall c.x ∧ Prison.isSmall c.y

instance (p : Position) : Decidable p.isSmall := by unfold Position.isSmall; infer_instance

/-- Descriptors handed to the engine during a run, in call order. -/
def State.descriptors (s : State) : List ImageView :=
  s.calls.filterMap fun c =>
    match c with
    | .ReadBarcode iv _ => some iv
    | _ => none

/-- Offset, in a tightly packed plane of 16 bit little-endian samples, of the high
byte of the sample of pixel `(x, y)`. -/
def highByteOffset (width x y : Int) : Int := 2 * (y * width + x) + 1

/-- Offset from `frame.bits()` of the byte a descriptor addresses for pixel `(x, y)`. -/
def ImageView.offset (iv : ImageView) (frame : VideoScannerFrame) (x y : Int) : Int :=
  iv.addr x y - frame.bits

/-- Tags of the needs-conversion bucket as the specification lists them. -/
def needsConversion : PixelFormat → Bool
  | .qt5 .Format_RGB565 | .qt5 .Format_RGB555 | .qt5 .Format_ARGB8565_Premultiplied
  | .qt5 .Format_BGR565 | .qt5 .Format_BGR555 | .qt5 .Format_BGRA5658_Premultiplied
  | .qt5 .Format_Jpeg | .qt5 .Format_CameraRaw | .qt5 .Format_AdobeDng
  | .qt5 .Format_User => true
  | .qt6 .Format_Jpeg | .qt6 .Format_SamplerExternalOES | .qt6 .Format_SamplerRect => true
  | _ => false

/-- The invalid tag of either enumeration and the Qt 5 counter `NPixelFormats`. -/
def isInvalidTag : PixelFormat → Bool
  | .qt5 .Format_Invalid | .qt5 .NPixelFormats | .qt6 .Format_Invalid => true
  | _ => false

/-- An invocation of the decode engine. -/
def Call.isReadBarcode : Call → Bool
  | .ReadBarcode _ _ => true
  | _ => false

/-- Planar and semi-planar YUV tags of either enumeration. -/
def isPlanarYUV : PixelFormat → Bool
  | .qt5 .Format_YUV420P | .qt5 .Format_YUV422P | .qt5 .Format_YV12 | .qt5 .Format_NV12
  | .qt5 .Format_NV21 | .qt5 .Format_IMC1 | .qt5 .Format_IMC2 | .qt5 .Format_IMC3
  | .qt5 .Format_IMC4 => true
  | .qt6 .Format_YUV420P | .qt6 .Format_YUV422P | .qt6 .Format_YV12 | .qt6 .Format_NV12
  | .qt6 .Format_NV21 | .qt6 .Format_IMC1 | .qt6 .Format_IMC2 | .qt6 .Format_IMC3
  | .qt6 .Format_IMC4 => true
  | _ => false

/-- The tag `Format_Y8` of the enumeration a tag belongs to. -/
def lumaTag : PixelFormat → PixelFormat
  | .qt5 _ => .qt5 .Format_Y8
  | .qt6 _ => .qt6 .Format_Y8

/-- Hints handed to the engine during a run, in call order. -/
def State.hints (s : State) : List DecodeHints :=
  s.calls.filterMap fun c =>
    match c with
    | .ReadBarcode _ h => some h
    | _ => none

/-- The empty set of symbologies, a `ZXing::BarcodeFormats` without any flag. -/
def noBarcodeFormats : Nat := 0

/-- An environment like `Env.fixed r` whose engine raises on every call. -/
def Env.engineRaises (r : ZXResult) : Env :=
  { Env.fixed r with ReadBarcode := fun _ _ => Except.error ⟨"ReadBarcode"⟩ }

/-- An environment like `Env.fixed r` whose conversion raises on every call. -/
def Env.conversionRaises (r : ZXResult) : Env :=
  { Env.fixed r with convertToImage := fun _ => Except.error ⟨"convertToImage"⟩ }

/-- Bytes per pixel and index of the luma byte of the packed YUV tags, from the byte
orders A-Y-U-V, Y-U-V, U-Y-V-Y and Y-U-Y-V of the specification. -/
def packedLuma : PixelFormat → Option (Int × Int)
  | .qt5 .Format_AYUV444 | .qt5 .Format_AYUV444_Premultiplied
  | .qt6 .Format_AYUV | .qt6 .Format_AYUV_Premultiplied => some (4, 1)
  | .qt5 .Format_YUV444 => some (3, 0)
  | .qt5 .Format_UYVY | .qt6 .Format_UYVY => some (2, 1)
  | .qt5 .Format_YUYV | .qt6 .Format_YUYV => some (2, 0)
  | _ => none

/-- Decoder layout the specification assigns to each packed RGB tag. -/
def packedRGBLayout : PixelFormat → Option ImageFormat
  | .qt5 .Format_ARGB32 | .qt5 .Format_ARGB32_Premultiplied | .qt5 .Format_RGB32
  | .qt6 .Format_ARGB8888 | .qt6 .Format_ARGB8888_Premultiplied
  | .qt6 .Format_XRGB8888 => some .XRGB
  | .qt5 .Format_BGRA32 | .qt5 .Format_BGRA32_Premultiplied | .qt5 .Format_BGR32
  | .qt6 .Format_BGRA8888 | .qt6 .Format_BGRA8888_Premultiplied
  | .qt6 .Format_BGRX8888 => some .BGRX
  | .qt5 .Format_ABGR32 | .qt6 .Format_ABGR8888 | .qt6 .Format_XBGR8888 => some .XBGR
  | .qt6 .Format_RGBA8888 | .qt6 .Format_RGBX8888 => some .RGBX
  | .qt5 .Format_RGB24 => some .RGB
  | .qt5 .Format_BGR24 => some .BGR
  | _ => none

/-- Bytes per pixel of the first plane of a directly sampled tag: 4 for 32 bit RGB and
AYUV, 3 for RGB24, BGR24 and YUV444, 2 for UYVY, YUYV, Y16, P010 and P016, 1 for Y8
and the planar YUV tags. -/
def bytesPerPixel : PixelFormat → Option Int
  | .qt5 .Format_ARGB32 | .qt5 .Format_ARGB32_Premultiplied | .qt5 .Format_RGB32
  | .qt5 .Format_BGRA32 | .qt5 .Format_BGRA32_Premultiplied | .qt5 .Format_BGR32
  | .qt5 .Format_ABGR32 | .qt5 .Format_AYUV444 | .qt5 .Format_AYUV444_Premultiplied
  | .qt6 .Format_ARGB8888 | .qt6 .Format_ARGB8888_Premultiplied | .qt6 .Format_XRGB8888
  | .qt6 .Format_BGRA8888 | .qt6 .Format_BGRA8888_Premultiplied | .qt6 .Format_BGRX8888
  | .qt6 .Format_ABGR8888 | .qt6 .Format_XBGR8888 | .qt6 .Format_RGBA8888
  | .qt6 .Format_RGBX8888 | .qt6 .Format_AYUV | .qt6 .Format_AYUV_Premultiplied => some 4
  | .qt5 .Format_RGB24 | .qt5 .Format_BGR24 | .qt5 .Format_YUV444 => some 3
  | .qt5 .Format_UYVY | .qt5 .Format_YUYV | .qt5 .Format_Y16
  | .qt6 .Format_UYVY | .qt6 .Format_YUYV | .qt6 .Format_Y16
  | .qt6 .Format_P010 | .qt6 .Format_P016 => some 2
  | .qt5 .Format_Y8 | .qt5 .Format_YUV420P | .qt5 .Format_YUV422P | .qt5 .Format_YV12
  | .qt5 .Format_NV12 | .qt5 .Format_NV21 | .qt5 .Format_IMC1 | .qt5 .Format_IMC2
  | .qt5 .Format_IMC3 | .qt5 .Format_IMC4
  | .qt6 .Format_Y8 | .qt6 .Format_YUV420P | .qt6 .Format_YUV422P | .qt6 .Format_YV12
  | .qt6 .Format_NV12 | .qt6 .Format_NV21 | .qt6 .Format_IMC1 | .qt6 .Format_IMC2
  | .qt6 .Format_IMC3 | .qt6 .Format_IMC4 => some 1
  | _ => none

/-- Number of consecutive bytes the engine reads at the address of a pixel: the one
luma byte, or the channel bytes of an RGB layout (at most the whole pixel). -/
def ImageFormat.bytesRead : ImageFormat → Int
  | .Lum => 1
  | f => f.PixStride

/-! ## Basic facts about the embedding -/

theorem wrapInt_of_isInt {v : Int} (h : isInt v) : wrapInt v = v := by
  unfold isInt INT_MIN INT_MAX at h
  unfold wrapInt
  omega

theorem slotScanFrame_fault (env : Env) (frame : VideoScannerFrame) :
    (slotScanFrame env frame).fault = (decodeFrame env frame).fault := by
  unfold slotScanFrame
  by_cases h : (decodeFrame env frame).fault.isSome <;> simp [h]

theorem slotScanFrame_zxRes (env : Env) (frame : VideoScannerFrame) :
    (slotScanFrame env frame).zxRes = (decodeFrame env frame).zxRes := by
  unfold slotScanFrame
  by_cases h : (decodeFrame env frame).fault.isSome <;> simp [h]

theorem slotScanFrame_frame (env : Env) (frame : VideoScannerFrame) :
    (slotScanFrame env frame).frame = (decodeFrame env frame).frame := by
  unfold slotScanFrame
  by_cases h : (decodeFrame env frame).fault.isSome <;> simp [h]

/-- A run that no exception ends emits the result built from its final `zxRes` and `frame`. -/
theorem slotScanFrame_emitted (env : Env) (frame : VideoScannerFrame)
    (h : (slotScanFrame env frame).fault = none) :
    (slotScanFrame env frame).emitted
      = some (processResult env (slotScanFrame env frame).zxRes (slotScanFrame env frame).frame) := by
  rw [slotScanFrame_zxRes, slotScanFrame_frame]
  rw [slotScanFrame_fault] at h
  unfold slotScanFrame
  simp [h]

/-- Only a run that no exception ends emits a result. -/
theorem slotScanFrame_fault_of_emitted (env : Env) (frame : VideoScannerFrame) (r : ScanResult)
    (h : (slotScanFrame env frame).emitted = some r) :
    (slotScanFrame env frame).fault = none := by
  have hd : (decodeFrame env frame).emitted = none := by
    unfold decodeFrame switchPixelFormat
    cases hp : frame.pixelFormat with
    | qt5 tag =>
      cases tag <;>
        simp [hp, switchQt5, convertThenRead, assignReadBarcode, callConvertToImage] <;>
        repeat (first | rfl | split)
    | qt6 tag =>
      cases tag <;>
        simp [hp, switchQt6, convertThenRead, assignReadBarcode, callConvertToImage] <;>
        repeat (first | rfl | split)
  rw [slotScanFrame_fault]
  unfold slotScanFrame at h
  by_cases hf : (decodeFrame env frame).fault.isSome
  · simp [hf, hd] at h
  · simpa using hf

/-- With corners that are `int`s the loop computes the four extrema. -/
theorem polygonExtent_eq (p : Position) (h : p.isInt) :
    polygonExtent p = ⟨p.minX, p.minY, p.maxX, p.maxY⟩ := by
  simp only [Position.isInt, Position.corners, List.mem_cons, List.mem_singleton,
    List.not_mem_nil, or_false, forall_eq_or_imp, forall_eq, isInt, INT_MIN, INT_MAX] at h
  simp only [polygonExtent, Position.corners, List.foldl, Extent.step, Position.minX,
    Position.minY, Position.maxX, Position.maxY, INT_MIN, INT_MAX, Extent.mk.injEq]
  omega

/-- With small height the flip transformation is `y -> height - y` on points. -/
theorem flipTransform_eq (H : Int) (hH : isSmall H) : flipTransform H = ⟨1, -1, 0, H⟩ := by
  unfold isSmall at hH
  have hw : wrapInt (-H) = -H := wrapInt_of_isInt (by unfold isInt INT_MIN INT_MAX; omega)
  simp [flipTransform, QTransform.identity, QTransform.scale, QTransform.translate, hw]

/-- The flip transformation maps the pixel rows `y1 .. y2` to the rows
`H - 1 - y2 .. H - 1 - y1` and keeps the columns. -/
theorem flipTransform_mapRect (H x1 y1 x2 y2 : Int) (hH : isSmall H)
    (hx1 : isSmall x1) (hy1 : isSmall y1) (hx2 : isSmall x2) (hy2 : isSmall y2)
    (hx : x1 ≤ x2) (hy : y1 ≤ y2) :
    (flipTransform H).mapRect ⟨x1, y1, x2, y2⟩ = ⟨x1, H - 1 - y2, x2, H - 1 - y1⟩ := by
  rw [flipTransform_eq H hH]
  unfold isSmall at *
  have wr : ∀ v : Int, -2147483648 ≤ v ∧ v ≤ 2147483647 → wrapInt v = v := fun v hv =>
    wrapInt_of_isInt (by unfold isInt INT_MIN INT_MAX; exact hv)
  have hw : wrapInt (x2 - x1 + 1) = x2 - x1 + 1 := wr _ (by omega)
  have hh : wrapInt (y2 - y1 + 1) = y2 - y1 + 1 := wr _ (by omega)
  have e1 : wrapInt (1 * x1 + 0) = x1 := by rw [wr _ (by omega)]; omega
  have e2 : wrapInt (-1 * y1 + H) = H - y1 := by rw [wr _ (by omega)]; omega
  have e3 : wrapInt (1 * (x2 - x1 + 1)) = x2 - x1 + 1 := by rw [wr _ (by omega)]; omega
  have e4 : wrapInt (-1 * (y2 - y1 + 1)) = -(y2 - y1 + 1) := by rw [wr _ (by omega)]; omega
  have e5 : wrapInt (- -(y2 - y1 + 1)) = y2 - y1 + 1 := by rw [wr _ (by omega)]; omega
  have e6 : wrapInt (H - y1 - (y2 - y1 + 1)) = H - 1 - y2 := by rw [wr _ (by omega)]; omega
  have e7 : wrapInt (x1 + (x2 - x1 + 1) - 1) = x2 := by rw [wr _ (by omega)]; omega
  have e8 : wrapInt (H - 1 - y2 + (y2 - y1 + 1) - 1) = H - 1 - y1 := by
    rw [wr _ (by omega)]; omega
  have n1 : ¬ (x2 - x1 + 1 < 0) := by omega
  have n2 : -(y2 - y1 + 1) < 0 := by omega
  simp only [QTransform.mapRect, QRect.x, QRect.y, QRect.width, QRect.height, qRound,
    QRect.ofSize]
  rw [if_neg (by decide)]
  simp only [hw, hh, e1, e2, e3, e4, n1, n2, if_true, if_false, e5, e6, e7, e8]

@[simp] theorem assignReadBarcode_calls (env : Env) (hints : DecodeHints) (iv : ImageView)
    (s : State) :
    (assignReadBarcode env hints iv s).calls = s.calls ++ [Call.ReadBarcode iv hints] := by
  unfold assignReadBarcode
  split <;> rfl

@[simp] theorem assignReadBarcode_frame (env : Env) (hints : DecodeHints) (iv : ImageView)
    (s : State) : (assignReadBarcode env hints iv s).frame = s.frame := by
  unfold assignReadBarcode
  split <;> rfl

/-- A conversion that completes replaces the frame, and the engine is then invoked on
the converted frame. -/
theorem convertThenRead_ok (env : Env) (hints : DecodeHints) (frame f : VideoScannerFrame)
    (zx : ZXResult) (calls : List Call) (emitted : Option ScanResult)
    (h : env.convertToImage frame = .ok f) :
    convertThenRead env hints ⟨frame, zx, calls, none, emitted⟩
      = assignReadBarcode env hints ⟨f.bits, f.width, f.height, .Lum, 0, 0⟩
          ⟨f, zx, calls ++ [Call.convertToImage], none, emitted⟩ := by
  simp [convertThenRead, callConvertToImage, h]

/-- Calls of a whole run: those up to the switch, then `unmap` and the signal unless an
exception ended the run. -/
theorem slotScanFrame_calls (env : Env) (frame : VideoScannerFrame) :
    ∃ rest, (slotScanFrame env frame).calls = (decodeFrame env frame).calls ++ rest
      ∧ ∀ c ∈ rest, c = Call.unmap ∨ ∃ r, c = Call.result r := by
  unfold slotScanFrame
  by_cases h : (decodeFrame env frame).fault.isSome
  · exact ⟨[], by simp [h], by simp⟩
  · exact ⟨[Call.unmap, Call.result
      (processResult env (decodeFrame env frame).zxRes (decodeFrame env frame).frame)],
      by simp [h], by simp⟩

theorem slotScanFrame_descriptors (env : Env) (frame : VideoScannerFrame) :
    (slotScanFrame env frame).descriptors = (decodeFrame env frame).descriptors := by
  unfold slotScanFrame
  by_cases h : (decodeFrame env frame).fault.isSome <;> simp [h, State.descriptors]

/-- Shape of the calls up to the switch for a tag that is not invalid. -/
theorem decodeFrame_calls (env : Env) (frame : VideoScannerFrame)
    (htag : isInvalidTag frame.pixelFormat = false)
    (hconv : needsConversion frame.pixelFormat = true → ∃ f, env.convertToImage frame = .ok f) :
    ∃ iv, (decodeFrame env frame).calls
      = Call.map :: ((if needsConversion frame.pixelFormat then [Call.convertToImage] else [])
          ++ [Call.ReadBarcode iv (scanHints env frame)]) := by
  unfold decodeFrame switchPixelFormat
  cases hp : frame.pixelFormat with
  | qt5 tag =>
    rw [hp] at htag hconv
    cases tag <;> simp [isInvalidTag] at htag <;>
      first
      | (simp [switchQt5, needsConversion]; done)
      | (obtain ⟨f, hf⟩ := hconv rfl
         simp [switchQt5, needsConversion, convertThenRead_ok env _ _ f _ _ _ hf])
  | qt6 tag =>
    rw [hp] at htag hconv
    cases tag <;> simp [isInvalidTag] at htag <;>
      first
      | (simp [switchQt6, needsConversion]; done)
      | (obtain ⟨f, hf⟩ := hconv rfl
         simp [switchQt6, needsConversion, convertThenRead_ok env _ _ f _ _ _ hf])

/-- For a directly sampled tag the frame is left as it is. -/
theorem decodeFrame_frame_direct (env : Env) (frame : VideoScannerFrame)
    (hdirect : needsConversion frame.pixelFormat = false) :
    (decodeFrame env frame).frame = frame := by
  unfold decodeFrame switchPixelFormat
  cases hp : frame.pixelFormat with
  | qt5 tag =>
    rw [hp] at hdirect
    cases tag <;> simp [needsConversion] at hdirect <;> simp [switchQt5]
  | qt6 tag =>
    rw [hp] at hdirect
    cases tag <;> simp [needsConversion] at hdirect <;> simp [switchQt6]

/-- Two runs on frames of the same tag whose sampled frames have the same buffer and
dimensions hand the same descriptors to the engine. -/
theorem decodeFrame_descriptors_congr (env env2 : Env) (frame frame2 : VideoScannerFrame)
    (hpf : frame2.pixelFormat = frame.pixelFormat)
    (hconv : needsConversion frame.pixelFormat = true → ∃ f, env.convertToImage frame = .ok f)
    (hconv2 : needsConversion frame.pixelFormat = true →
      ∃ f, env2.convertToImage frame2 = .ok f)
    (hb : (decodeFrame env2 frame2).frame.bits = (decodeFrame env frame).frame.bits)
    (hw : (decodeFrame env2 frame2).frame.width = (decodeFrame env frame).frame.width)
    (hh : (decodeFrame env2 frame2).frame.height = (decodeFrame env frame).frame.height) :
    (decodeFrame env2 frame2).descriptors = (decodeFrame env frame).descriptors := by
  unfold decodeFrame switchPixelFormat at hb hw hh ⊢
  cases hp : frame.pixelFormat with
  | qt5 tag =>
    rw [hp] at hpf hconv hconv2
    simp only [hp, hpf] at hb hw hh ⊢
    cases tag <;>
      first
      | (simp [switchQt5, State.descriptors] at hb hw hh ⊢; done)
      | (simp [switchQt5, State.descriptors] at hb hw hh ⊢; simp [hb, hw, hh])
      | (obtain ⟨f, hf⟩ := hconv rfl
         obtain ⟨f2, hf2⟩ := hconv2 rfl
         simp [switchQt5, State.descriptors, convertThenRead_ok env _ _ f _ _ _ hf,
           convertThenRead_ok env2 _ _ f2 _ _ _ hf2] at hb hw hh ⊢
         simp [hb, hw, hh])
  | qt6 tag =>
    rw [hp] at hpf hconv hconv2
    simp only [hp, hpf] at hb hw hh ⊢
    cases tag <;>
      first
      | (simp [switchQt6, State.descriptors] at hb hw hh ⊢; done)
      | (simp [switchQt6, State.descriptors] at hb hw hh ⊢; simp [hb, hw, hh])
      | (obtain ⟨f, hf⟩ := hconv rfl
         obtain ⟨f2, hf2⟩ := hconv2 rfl
         simp [switchQt6, State.descriptors, convertThenRead_ok env _ _ f _ _ _ hf,
           convertThenRead_ok env2 _ _ f2 _ _ _ hf2] at hb hw hh ⊢
         simp [hb, hw, hh])

/-! ## Payload classification and bounding rectangle -/

/-- C1 (the code departs from the claim): a valid outcome whose text is the single code
unit 25 has no code unit above 255 and contains a control character (25 is below 32 and
is neither 10 nor 13), so the claim classifies it as binary; `slotScanFrame` emits it as
text, because its test for control characters is `c < 20`. -/
theorem slotScanFrame_control_threshold_at_25 :
    (slotScanFrame (Env.fixed (validResult [25] samplePolygon))
        (frameOf (.qt5 .Format_Y8) 40 30 false)).zxRes.isValid = true
    ∧ (slotScanFrame (Env.fixed (validResult [25] samplePolygon))
        (frameOf (.qt5 .Format_Y8) 40 30 false)).zxRes.text = [25]
    ∧ (∀ c ∈ [25], ¬ c > 255)
    ∧ (∃ c ∈ [25], isControlChar c)
    ∧ hasControlChars [25] = false
    ∧ (slotScanFrame (Env.fixed (validResult [25] samplePolygon))
        (frameOf (.qt5 .Format_Y8) 40 30 false)).emitted.map ScanResult.hasText = some true
    ∧ (slotScanFrame (Env.fixed (validResult [25] samplePolygon))
        (frameOf (.qt5 .Format_Y8) 40 30 false)).emitted.map ScanResult.hasBinary
        = some false := by
  decide

/-- C2 (the claim as stated fails): for the corners (2,5), (10,5), (10,20), (2,20) on a
vertically flipped frame of height 30 the emitted rectangle is (2,9)-(10,24), not
(2,10)-(10,25): its top is not 30 - 20 and its bottom is not 30 - 5. -/
theorem slotScanFrame_flipped_sample_rect :
    (slotScanFrame (Env.fixed (validResult [] samplePolygon))
        (frameOf (.qt5 .Format_Y8) 40 30 true)).zxRes.isValid = true
    ∧ (slotScanFrame (Env.fixed (validResult [] samplePolygon))
        (frameOf (.qt5 .Format_Y8) 40 30 true)).frame.isVerticallyFlipped = true
    ∧ (slotScanFrame (Env.fixed (validResult [] samplePolygon))
        (frameOf (.qt5 .Format_Y8) 40 30 true)).frame.height = 30
    ∧ (slotScanFrame (Env.fixed (validResult [] samplePolygon))
        (frameOf (.qt5 .Format_Y8) 40 30 true)).emitted.map (fun r => r.boundingRect)
        = some ⟨2, 9, 10, 24⟩
    ∧ (slotScanFrame (Env.fixed (validResult [] samplePolygon))
        (frameOf (.qt5 .Format_Y8) 40 30 true)).emitted.map (fun r => r.boundingRect.topLeft.y)
        ≠ some (30 - samplePolygon.maxY)
    ∧ (slotScanFrame (Env.fixed (validResult [] samplePolygon))
        (frameOf (.qt5 .Format_Y8) 40 30 true)).emitted.map
          (fun r => r.boundingRect.bottomRight.y)
        ≠ some (30 - samplePolygon.minY) := by
  decide

/-- C2 (amended): for a valid outcome on a frame that is vertically flipped and has
height `H`, with corner coordinates and `H` of magnitude below `2 ^ 30`, the emitted
rectangle keeps the left and right x of the unflipped rectangle (the smallest and the
largest corner x), its top-left y is `H - 1 -` the largest corner y and its bottom-right
y is `H - 1 -` the smallest corner y. -/
theorem slotScanFrame_flipped_rect (env : Env) (frame : VideoScannerFrame)
    (hfault : (slotScanFrame env frame).fault = none)
    (hvalid : (slotScanFrame env frame).zxRes.isValid = true)
    (hflip : (slotScanFrame env frame).frame.isVerticallyFlipped = true)
    (hH : isSmall (slotScanFrame env frame).frame.height)
    (hp : (slotScanFrame env frame).zxRes.position.isSmall) :
    ∃ r, (slotScanFrame env frame).emitted = some r
      ∧ r.boundingRect.left = (polygonRect (slotScanFrame env frame).zxRes.position).left
      ∧ r.boundingRect.right = (polygonRect (slotScanFrame env frame).zxRes.position).right
      ∧ r.boundingRect.topLeft
          = ⟨(slotScanFrame env frame).zxRes.position.minX,
             (slotScanFrame env frame).frame.height - 1
               - (slotScanFrame env frame).zxRes.position.maxY⟩
      ∧ r.boundingRect.bottomRight
          = ⟨(slotScanFrame env frame).zxRes.position.maxX,
             (slotScanFrame env frame).frame.height - 1
               - (slotScanFrame env frame).zxRes.position.minY⟩ := by
  refine ⟨_, slotScanFrame_emitted env frame hfault, ?_⟩
  generalize (slotScanFrame env frame).zxRes = zx at hvalid hp ⊢
  generalize (slotScanFrame env frame).frame = f at hflip hH ⊢
  have hint : zx.position.isInt := by
    intro c hc
    have := hp c hc
    simp only [Prison.isSmall, Prison.isInt, INT_MIN, INT_MAX] at this ⊢
    omega
  have hext := polygonExtent_eq zx.position hint
  simp only [Position.isSmall, Position.corners, List.mem_cons, List.mem_singleton,
    List.not_mem_nil, or_false, forall_eq_or_imp, forall_eq] at hp
  have hrect : (processResult env zx f).boundingRect
      = ⟨zx.position.minX, f.height - 1 - zx.position.maxY,
         zx.position.maxX, f.height - 1 - zx.position.minY⟩ := by
    simp only [processResult, hvalid, if_true, scanBoundingRect, hflip, polygonRect, hext,
      QRect.ofPoints]
    apply flipTransform_mapRect _ _ _ _ _ hH <;>
      simp only [Prison.isSmall, Position.minX, Position.minY, Position.maxX,
        Position.maxY] at hp ⊢ <;>
      omega
  rw [hrect]
  simp [polygonRect, hext, QRect.ofPoints, QRect.left, QRect.right, QRect.topLeft,
    QRect.bottomRight]

/-- C2 (amended) at the sample polygon on a flipped frame of height 30: the rectangle
is (2,9)-(10,24). -/
theorem slotScanFrame_flipped_rect_witness :
    (slotScanFrame (Env.fixed (validResult [] samplePolygon))
        (frameOf (.qt5 .Format_Y8) 40 30 true)).fault = none
    ∧ ∃ r, (slotScanFrame (Env.fixed (validResult [] samplePolygon))
        (frameOf (.qt5 .Format_Y8) 40 30 true)).emitted = some r
      ∧ r.boundingRect.left = 2 ∧ r.boundingRect.right = 10
      ∧ r.boundingRect.topLeft = ⟨2, 30 - 1 - 20⟩
      ∧ r.boundingRect.bottomRight = ⟨10, 30 - 1 - 5⟩ :=
  ⟨by decide,
   slotScanFrame_flipped_rect (Env.fixed (validResult [] samplePolygon))
     (frameOf (.qt5 .Format_Y8) 40 30 true) (by decide) (by decide) (by decide) (by decide)
     (by decide)⟩

/-- C3: for a valid outcome on a frame that is not vertically flipped, the emitted
rectangle has top-left corner (smallest corner x, smallest corner y) and bottom-right
corner (largest corner x, largest corner y); every corner of the polygon lies inside
it, and each of its four sides passes through a corner. -/
theorem slotScanFrame_unflipped_rect (env : Env) (frame : VideoScannerFrame)
    (hfault : (slotScanFrame env frame).fault = none)
    (hvalid : (slotScanFrame env frame).zxRes.isValid = true)
    (hflip : (slotScanFrame env frame).frame.isVerticallyFlipped = false)
    (hp : (slotScanFrame env frame).zxRes.position.isInt) :
    ∃ r, (slotScanFrame env frame).emitted = some r
      ∧ r.boundingRect.topLeft
          = ⟨(slotScanFrame env frame).zxRes.position.minX,
             (slotScanFrame env frame).zxRes.position.minY⟩
      ∧ r.boundingRect.bottomRight
          = ⟨(slotScanFrame env frame).zxRes.position.maxX,
             (slotScanFrame env frame).zxRes.position.maxY⟩
      ∧ (∀ c ∈ (slotScanFrame env frame).zxRes.position.corners,
          r.boundingRect.left ≤ c.x ∧ c.x ≤ r.boundingRect.right
          ∧ r.boundingRect.top ≤ c.y ∧ c.y ≤ r.boundingRect.bottom)
      ∧ (∃ c ∈ (slotScanFrame env frame).zxRes.position.corners, c.x = r.boundingRect.left)
      ∧ (∃ c ∈ (slotScanFrame env frame).zxRes.position.corners, c.x = r.boundingRect.right)
      ∧ (∃ c ∈ (slotScanFrame env frame).zxRes.position.corners, c.y = r.boundingRect.top)
      ∧ (∃ c ∈ (slotScanFrame env frame).zxRes.position.corners,
          c.y = r.boundingRect.bottom) := by
  refine ⟨_, slotScanFrame_emitted env frame hfault, ?_⟩
  generalize (slotScanFrame env frame).zxRes = zx at hvalid hp ⊢
  generalize (slotScanFrame env frame).frame = f at hflip ⊢
  have hext := polygonExtent_eq zx.position hp
  have hrect : (processResult env zx f).boundingRect
      = ⟨zx.position.minX, zx.position.minY, zx.position.maxX, zx.position.maxY⟩ := by
    simp [processResult, hvalid, scanBoundingRect, hflip, polygonRect, hext, QRect.ofPoints]
  rw [hrect]
  simp only [QRect.topLeft, QRect.bottomRight, QRect.left, QRect.right, QRect.top,
    QRect.bottom, Position.corners, List.mem_cons, List.mem_singleton, List.not_mem_nil,
    or_false, forall_eq_or_imp, forall_eq, exists_eq_or_imp, exists_eq_left,
    Position.minX, Position.minY, Position.maxX, Position.maxY, true_and]
  omega

/-- C3 at the corners (2,5), (10,5), (10,20), (2,20) on an unflipped frame: the
rectangle has top-left (2,5) and bottom-right (10,20). -/
theorem slotScanFrame_unflipped_rect_witness :
    (slotScanFrame (Env.fixed (validResult [] samplePolygon))
        (frameOf (.qt6 .Format_Y8) 40 30 false)).zxRes.position = samplePolygon
    ∧ ∃ r, (slotScanFrame (Env.fixed (validResult [] samplePolygon))
        (frameOf (.qt6 .Format_Y8) 40 30 false)).emitted = some r
      ∧ r.boundingRect.topLeft = ⟨2, 5⟩
      ∧ r.boundingRect.bottomRight = ⟨10, 20⟩
      ∧ (∀ c ∈ samplePolygon.corners,
          r.boundingRect.left ≤ c.x ∧ c.x ≤ r.boundingRect.right
          ∧ r.boundingRect.top ≤ c.y ∧ c.y ≤ r.boundingRect.bottom)
      ∧ (∃ c ∈ samplePolygon.corners, c.x = r.boundingRect.left)
      ∧ (∃ c ∈ samplePolygon.corners, c.x = r.boundingRect.right)
      ∧ (∃ c ∈ samplePolygon.corners, c.y = r.boundingRect.top)
      ∧ (∃ c ∈ samplePolygon.corners, c.y = r.boundingRect.bottom) :=
  ⟨by decide,
   slotScanFrame_unflipped_rect (Env.fixed (validResult [] samplePolygon))
     (frameOf (.qt6 .Format_Y8) 40 30 false) (by decide) (by decide) (by decide)
     (by decide)⟩

/-! ## Format dispatch -/

/-- C4 (the code departs from the claim): on a tightly packed frame of width 2 and
height 1 the high byte of pixel (1, 0) is at offset 3.  For a Y16 frame (either Qt
version) the descriptor is `{bits + 1, 2, 1, Lum, 0, 1}` and addresses offset 2 for that
pixel, the low byte; for P010 and P016 the descriptor is `{bits, 2, 1, Lum, 0, 1}` and
addresses offset 1 for pixel (1, 0) and offset 0, a low byte, for pixel (0, 0). -/
theorem slotScanFrame_high_byte_at_width_2 :
    highByteOffset 2 1 0 = 3 ∧ highByteOffset 2 0 0 = 1
    ∧ (slotScanFrame (Env.fixed (validResult [] samplePolygon))
        (frameOf (.qt5 .Format_Y16) 2 1 false)).descriptors = [⟨0 + 1, 2, 1, .Lum, 0, 1⟩]
    ∧ (∀ iv ∈ (slotScanFrame (Env.fixed (validResult [] samplePolygon))
        (frameOf (.qt5 .Format_Y16) 2 1 false)).descriptors,
        iv.offset (frameOf (.qt5 .Format_Y16) 2 1 false) 1 0 = 2)
    ∧ (slotScanFrame (Env.fixed (validResult [] samplePolygon))
        (frameOf (.qt6 .Format_Y16) 2 1 false)).descriptors = [⟨0 + 1, 2, 1, .Lum, 0, 1⟩]
    ∧ (∀ iv ∈ (slotScanFrame (Env.fixed (validResult [] samplePolygon))
        (frameOf (.qt6 .Format_Y16) 2 1 false)).descriptors,
        iv.offset (frameOf (.qt6 .Format_Y16) 2 1 false) 1 0 = 2)
    ∧ (slotScanFrame (Env.fixed (validResult [] samplePolygon))
        (frameOf (.qt6 .Format_P010) 2 1 false)).descriptors = [⟨0, 2, 1, .Lum, 0, 1⟩]
    ∧ (∀ iv ∈ (slotScanFrame (Env.fixed (validResult [] samplePolygon))
        (frameOf (.qt6 .Format_P010) 2 1 false)).descriptors,
        iv.offset (frameOf (.qt6 .Format_P010) 2 1 false) 1 0 = 1
        ∧ iv.offset (frameOf (.qt6 .Format_P010) 2 1 false) 0 0 = 0)
    ∧ (slotScanFrame (Env.fixed (validResult [] samplePolygon))
        (frameOf (.qt6 .Format_P016) 2 1 false)).descriptors = [⟨0, 2, 1, .Lum, 0, 1⟩]
    ∧ (∀ iv ∈ (slotScanFrame (Env.fixed (validResult [] samplePolygon))
        (frameOf (.qt6 .Format_P016) 2 1 false)).descriptors,
        iv.offset (frameOf (.qt6 .Format_P016) 2 1 false) 1 0 = 1
        ∧ iv.offset (frameOf (.qt6 .Format_P016) 2 1 false) 0 0 = 0) := by
  decide

/-- C5: for every tag other than the invalid tag and the Qt 5 counter, a run in which
the conversion (when the tag needs one) completes invokes the engine exactly once; it
calls `convertToImage` if and only if the tag is in the needs-conversion list, and then
before the invocation; a directly sampled frame is left as it is; and two runs on
frames of the same tag whose sampled frames agree in buffer and dimensions make the
same convert/direct choice and hand the same descriptor to the engine. -/
theorem slotScanFrame_dispatch (env : Env) (frame : VideoScannerFrame)
    (htag : isInvalidTag frame.pixelFormat = false)
    (hconv : needsConversion frame.pixelFormat = true → ∃ f, env.convertToImage frame = .ok f) :
    ((slotScanFrame env frame).calls.filter Call.isReadBarcode).length = 1
    ∧ (Call.convertToImage ∈ (slotScanFrame env frame).calls
        ↔ needsConversion frame.pixelFormat = true)
    ∧ (∃ iv rest, (slotScanFrame env frame).calls
          = Call.map :: ((if needsConversion frame.pixelFormat then [Call.convertToImage]
              else []) ++ Call.ReadBarcode iv (scanHints env frame) :: rest)
        ∧ ∀ c ∈ rest, c = Call.unmap ∨ ∃ r, c = Call.result r)
    ∧ (needsConversion frame.pixelFormat = false → (slotScanFrame env frame).frame = frame)
    ∧ (∀ (env2 : Env) (frame2 : VideoScannerFrame),
        frame2.pixelFormat = frame.pixelFormat →
        (needsConversion frame.pixelFormat = true → ∃ f, env2.convertToImage frame2 = .ok f) →
        (slotScanFrame env2 frame2).frame.bits = (slotScanFrame env frame).frame.bits →
        (slotScanFrame env2 frame2).frame.width = (slotScanFrame env frame).frame.width →
        (slotScanFrame env2 frame2).frame.height = (slotScanFrame env frame).frame.height →
        (slotScanFrame env2 frame2).descriptors = (slotScanFrame env frame).descriptors
        ∧ (Call.convertToImage ∈ (slotScanFrame env2 frame2).calls
            ↔ Call.convertToImage ∈ (slotScanFrame env frame).calls)) := by
  have shape : ∀ (e : Env) (fr : VideoScannerFrame), isInvalidTag fr.pixelFormat = false →
      (needsConversion fr.pixelFormat = true → ∃ f, e.convertToImage fr = .ok f) →
      ∃ iv rest, (slotScanFrame e fr).calls
          = Call.map :: ((if needsConversion fr.pixelFormat then [Call.convertToImage]
              else []) ++ Call.ReadBarcode iv (scanHints e fr) :: rest)
        ∧ ∀ c ∈ rest, c = Call.unmap ∨ ∃ r, c = Call.result r := by
    intro e fr ht hc
    obtain ⟨iv, hiv⟩ := decodeFrame_calls e fr ht hc
    obtain ⟨rest, hrest, hall⟩ := slotScanFrame_calls e fr
    exact ⟨iv, rest, by rw [hrest, hiv]; simp, hall⟩
  have conv : ∀ (e : Env) (fr : VideoScannerFrame), isInvalidTag fr.pixelFormat = false →
      (needsConversion fr.pixelFormat = true → ∃ f, e.convertToImage fr = .ok f) →
      (Call.convertToImage ∈ (slotScanFrame e fr).calls
        ↔ needsConversion fr.pixelFormat = true) := by
    intro e fr ht hc
    obtain ⟨iv, rest, hcalls, hall⟩ := shape e fr ht hc
    have hrest : Call.convertToImage ∉ rest := by
      intro hmem
      rcases hall _ hmem with h | ⟨r, h⟩ <;> cases h
    rw [hcalls]
    by_cases hn : needsConversion fr.pixelFormat = true <;> simp [hn, hrest]
  obtain ⟨iv, rest, hcalls, hall⟩ := shape env frame htag hconv
  refine ⟨?_, conv env frame htag hconv, ⟨iv, rest, hcalls, hall⟩, ?_, ?_⟩
  · have hrest : rest.filter Call.isReadBarcode = [] := by
      rw [List.filter_eq_nil_iff]
      intro c hc
      rcases hall c hc with h | ⟨r, h⟩ <;> simp [h, Call.isReadBarcode]
    rw [hcalls]
    by_cases hn : needsConversion frame.pixelFormat = true <;>
      simp [hn, List.filter_cons, Call.isReadBarcode, hrest]
  · intro hdirect
    rw [slotScanFrame_frame]
    exact decodeFrame_frame_direct env frame hdirect
  · intro env2 frame2 hpf hconv2 hb hw hh
    rw [slotScanFrame_frame, slotScanFrame_frame] at hb hw hh
    refine ⟨?_, ?_⟩
    · rw [slotScanFrame_descriptors, slotScanFrame_descriptors]
      exact decodeFrame_descriptors_congr env env2 frame frame2 hpf hconv hconv2 hb hw hh
    · rw [conv env frame htag hconv,
        conv env2 frame2 (by rw [hpf]; exact htag) (by rw [hpf]; exact hconv2), hpf]

/-- C5 on a Qt 5 JPEG frame: one engine invocation, preceded by the conversion. -/
theorem slotScanFrame_dispatch_witness :
    isInvalidTag (frameOf (.qt5 .Format_Jpeg) 40 30 false).pixelFormat = false
    ∧ ((slotScanFrame (Env.fixed (validResult [] samplePolygon))
        (frameOf (.qt5 .Format_Jpeg) 40 30 false)).calls.filter Call.isReadBarcode).length = 1
    ∧ (Call.convertToImage ∈ (slotScanFrame (Env.fixed (validResult [] samplePolygon))
        (frameOf (.qt5 .Format_Jpeg) 40 30 false)).calls
        ↔ needsConversion (frameOf (.qt5 .Format_Jpeg) 40 30 false).pixelFormat = true) :=
  ⟨by decide,
   (slotScanFrame_dispatch (Env.fixed (validResult [] samplePolygon))
     (frameOf (.qt5 .Format_Jpeg) 40 30 false) (by decide) (fun _ => ⟨_, rfl⟩)).1,
   (slotScanFrame_dispatch (Env.fixed (validResult [] samplePolygon))
     (frameOf (.qt5 .Format_Jpeg) 40 30 false) (by decide) (fun _ => ⟨_, rfl⟩)).2.1⟩

/-- C6: a frame with a planar or semi-planar YUV tag is handed to the engine exactly
as the Y8 frame with the same buffer and dimensions: the run makes the same calls, and
its one descriptor is single-channel luma at the start of the buffer with default
strides, without conversion. -/
theorem slotScanFrame_planar_as_Y8 (env : Env) (frame : VideoScannerFrame)
    (hplanar : isPlanarYUV frame.pixelFormat = true) :
    (slotScanFrame env frame).descriptors
        = (slotScanFrame env { frame with pixelFormat := lumaTag frame.pixelFormat }).descriptors
    ∧ (slotScanFrame env frame).calls
        = (slotScanFrame env { frame with pixelFormat := lumaTag frame.pixelFormat }).calls
    ∧ (slotScanFrame env frame).descriptors
        = [⟨frame.bits, frame.width, frame.height, .Lum, 0, 0⟩]
    ∧ Call.convertToImage ∉ (slotScanFrame env frame).calls := by
  have key : decodeFrame env frame
      = { decodeFrame env { frame with pixelFormat := lumaTag frame.pixelFormat } with
          frame := frame } := by
    unfold decodeFrame switchPixelFormat
    cases hp : frame.pixelFormat with
    | qt5 tag =>
      rw [hp] at hplanar
      cases tag <;> simp [isPlanarYUV] at hplanar <;>
        (simp only [lumaTag, switchQt5, scanHints, assignReadBarcode]; split <;> rfl)
    | qt6 tag =>
      rw [hp] at hplanar
      cases tag <;> simp [isPlanarYUV] at hplanar <;>
        (simp only [lumaTag, switchQt6, scanHints, assignReadBarcode]; split <;> rfl)
  have hY8 : (decodeFrame env { frame with pixelFormat := lumaTag frame.pixelFormat }).calls
      = [Call.map, Call.ReadBarcode ⟨frame.bits, frame.width, frame.height, .Lum, 0, 0⟩
          (scanHints env frame)] := by
    unfold decodeFrame switchPixelFormat
    cases hp : frame.pixelFormat <;> simp [lumaTag, switchQt5, switchQt6, scanHints]
  have hframe : (decodeFrame env { frame with pixelFormat := lumaTag frame.pixelFormat }).frame
      = { frame with pixelFormat := lumaTag frame.pixelFormat } := by
    unfold decodeFrame switchPixelFormat
    cases hp : frame.pixelFormat <;> simp [lumaTag, switchQt5, switchQt6]
  have hcalls : (slotScanFrame env frame).calls
      = (slotScanFrame env { frame with pixelFormat := lumaTag frame.pixelFormat }).calls := by
    unfold slotScanFrame
    rw [key]
    by_cases hf : (decodeFrame env
        { frame with pixelFormat := lumaTag frame.pixelFormat }).fault.isSome
    · simp [hf]
    · simp [hf, hframe, processResult, scanBoundingRect]
  have hdesc : (slotScanFrame env frame).descriptors
      = [⟨frame.bits, frame.width, frame.height, .Lum, 0, 0⟩] := by
    rw [slotScanFrame_descriptors, key]
    simp [State.descriptors, hY8]
  refine ⟨?_, hcalls, hdesc, ?_⟩
  · simp only [State.descriptors, hcalls]
  · obtain ⟨rest, hrest, hall⟩ := slotScanFrame_calls env frame
    rw [hrest, key]
    simp only [hY8]
    intro hmem
    simp only [List.mem_append, List.mem_cons, List.mem_singleton, List.not_mem_nil,
      or_false, false_or, reduceCtorEq] at hmem
    rcases hall _ hmem with h | ⟨r, h⟩ <;> cases h

/-- C6 on a Qt 6 NV12 frame: the descriptor is the one of the Y8 frame. -/
theorem slotScanFrame_planar_as_Y8_witness :
    isPlanarYUV (frameOf (.qt6 .Format_NV12) 40 30 false).pixelFormat = true
    ∧ (slotScanFrame (Env.fixed (validResult [] samplePolygon))
        (frameOf (.qt6 .Format_NV12) 40 30 false)).descriptors
        = (slotScanFrame (Env.fixed (validResult [] samplePolygon))
            (frameOf (.qt6 .Format_Y8) 40 30 false)).descriptors
    ∧ (slotScanFrame (Env.fixed (validResult [] samplePolygon))
        (frameOf (.qt6 .Format_NV12) 40 30 false)).descriptors
        = [⟨0, 40, 30, .Lum, 0, 0⟩] :=
  ⟨by decide,
   (slotScanFrame_planar_as_Y8 (Env.fixed (validResult [] samplePolygon))
     (frameOf (.qt6 .Format_NV12) 40 30 false) (by decide)).1,
   (slotScanFrame_planar_as_Y8 (Env.fixed (validResult [] samplePolygon))
     (frameOf (.qt6 .Format_NV12) 40 30 false) (by decide)).2.2.1⟩

/-! ## Payload content, validity gate, invalid tag -/

/-- C7: for a valid outcome whose text has a code unit above 255 the payload is a
text, and the UTF-8 bytes of that text are exactly the UTF-8 encoding (`ToUtf8`) of the
whole decoded sequence, whatever control characters the text contains. -/
theorem slotScanFrame_wide_text (env : Env) (frame : VideoScannerFrame)
    (hfault : (slotScanFrame env frame).fault = none)
    (hvalid : (slotScanFrame env frame).zxRes.isValid = true)
    (hwide : ∃ c ∈ (slotScanFrame env frame).zxRes.text, c > 255) :
    ∃ r s, (slotScanFrame env frame).emitted = some r
      ∧ r.hasText = true
      ∧ r.hasBinary = false
      ∧ r.content = QVariant.string s
      ∧ s.utf8 = env.ToUtf8 (slotScanFrame env frame).zxRes.text := by
  refine ⟨_, QString.fromStdString (env.ToUtf8 (slotScanFrame env frame).zxRes.text),
    slotScanFrame_emitted env frame hfault, ?_⟩
  generalize (slotScanFrame env frame).zxRes = zx at hvalid hwide ⊢
  have hw : hasWideChars zx.text = true := by
    obtain ⟨c, hc, hgt⟩ := hwide
    simp only [hasWideChars, List.any_eq_true, decide_eq_true_eq]
    exact ⟨c, hc, hgt⟩
  simp [processResult, hvalid, scanContent, hw, ScanResult.hasText, ScanResult.hasBinary,
    QString.fromStdString]

/-- C7 on the text 5, 300 (a control character and a wide code unit): the payload is
the text whose UTF-8 bytes are 5, 196, 172. -/
theorem slotScanFrame_wide_text_witness :
    (∃ c ∈ (slotScanFrame (Env.fixed (validResult [5, 300] samplePolygon))
        (frameOf (.qt5 .Format_RGB24) 40 30 false)).zxRes.text, c > 255)
    ∧ hasControlChars [5, 300] = true
    ∧ (Env.fixed (validResult [5, 300] samplePolygon)).ToUtf8 [5, 300] = [5, 196, 172]
    ∧ ∃ r s, (slotScanFrame (Env.fixed (validResult [5, 300] samplePolygon))
        (frameOf (.qt5 .Format_RGB24) 40 30 false)).emitted = some r
      ∧ r.hasText = true
      ∧ r.hasBinary = false
      ∧ r.content = QVariant.string s
      ∧ s.utf8 = [5, 196, 172] :=
  ⟨by decide, by decide, by decide,
   slotScanFrame_wide_text (Env.fixed (validResult [5, 300] samplePolygon))
     (frameOf (.qt5 .Format_RGB24) 40 30 false) (by decide) (by decide) (by decide)⟩

/-- C8: whenever the emitted payload is binary, it is a copy of the decoded sequence:
it has the length of the text, its byte at every index is the code unit at that index,
and every code unit is at most 255, so no conversion to `char` truncates. -/
theorem slotScanFrame_binary_verbatim (env : Env) (frame : VideoScannerFrame)
    (r : ScanResult) (hr : (slotScanFrame env frame).emitted = some r)
    (hbin : r.hasBinary = true) :
    (slotScanFrame env frame).zxRes.isValid = true
    ∧ ∃ b, r.content = QVariant.byteArray b
      ∧ b.length = (slotScanFrame env frame).zxRes.text.length
      ∧ (∀ i : Nat, b[i]? = (slotScanFrame env frame).zxRes.text[i]?)
      ∧ (∀ c ∈ (slotScanFrame env frame).zxRes.text, c ≤ 255)
      ∧ b = (slotScanFrame env frame).zxRes.text := by
  have hfault := slotScanFrame_fault_of_emitted env frame r hr
  rw [slotScanFrame_emitted env frame hfault] at hr
  generalize (slotScanFrame env frame).zxRes = zx at hr ⊢
  generalize (slotScanFrame env frame).frame = f at hr
  have hr : r = processResult env zx f := by simpa using hr.symm
  subst hr
  cases hv : zx.isValid with
  | false => simp [processResult, hv, ScanResult.default, ScanResult.hasBinary] at hbin
  | true =>
    by_cases hc : (hasWideChars zx.text || !hasControlChars zx.text) = true
    · simp [processResult, hv, scanContent, hc, ScanResult.hasBinary] at hbin
    · have hnarrow : ∀ c ∈ zx.text, c ≤ 255 := by
        have hw : hasWideChars zx.text = false := by
          cases h : hasWideChars zx.text with
          | false => rfl
          | true => simp [h] at hc
        intro c hmem
        have := (List.any_eq_false.mp hw) c hmem
        simpa using this
      have hmap : zx.text.map (fun c => c % 256) = zx.text := by
        conv_rhs => rw [← List.map_id zx.text]
        apply List.map_congr_left
        intro c hmem
        have := hnarrow c hmem
        simp only [id]
        omega
      refine ⟨rfl, zx.text, ?_, rfl, fun _ => rfl, hnarrow, rfl⟩
      simp only [processResult, hv, scanContent, hc, if_true]
      simp [hmap]

/-- C8 on the text 1, 2, 200: the payload is the byte array 1, 2, 200. -/
theorem slotScanFrame_binary_verbatim_witness :
    (slotScanFrame (Env.fixed (validResult [1, 2, 200] samplePolygon))
        (frameOf (.qt6 .Format_YUYV) 40 30 false)).emitted
      = some ⟨QVariant.byteArray [1, 2, 200], ⟨2, 5, 10, 20⟩, 1⟩
    ∧ (slotScanFrame (Env.fixed (validResult [1, 2, 200] samplePolygon))
        (frameOf (.qt6 .Format_YUYV) 40 30 false)).zxRes.isValid = true
    ∧ ∃ b, QVariant.byteArray [1, 2, 200] = QVariant.byteArray b
      ∧ b.length = [1, 2, 200].length
      ∧ (∀ i : Nat, b[i]? = [1, 2, 200][i]?)
      ∧ (∀ c ∈ [1, 2, 200], c ≤ 255)
      ∧ b = [1, 2, 200] :=
  ⟨by decide,
   slotScanFrame_binary_verbatim (Env.fixed (validResult [1, 2, 200] samplePolygon))
     (frameOf (.qt6 .Format_YUYV) 40 30 false)
     ⟨QVariant.byteArray [1, 2, 200], ⟨2, 5, 10, 20⟩, 1⟩ (by decide) (by decide)⟩

/-- C9: when no exception ends the run and the outcome is not valid, the emitted
result is the default-constructed `ScanResult` (no payload, null rectangle, no
symbology), whatever the text, polygon and symbology of the outcome and whatever the
flip flag of the frame. -/
theorem slotScanFrame_invalid_outcome (env : Env) (frame : VideoScannerFrame)
    (hfault : (slotScanFrame env frame).fault = none)
    (hinvalid : (slotScanFrame env frame).zxRes.isValid = false) :
    (slotScanFrame env frame).emitted = some ScanResult.default := by
  rw [slotScanFrame_emitted env frame hfault]
  simp [processResult, hinvalid]

/-- C9 on a flipped frame whose outcome has status `NotFound` but carries a text, a
polygon and a symbology: the default result is emitted. -/
theorem slotScanFrame_invalid_outcome_witness :
    (slotScanFrame
        (Env.fixed { validResult [72, 105] samplePolygon with status := DecodeStatus.NotFound })
        (frameOf (.qt5 .Format_RGB32) 40 30 true)).zxRes.text = [72, 105]
    ∧ (slotScanFrame
        (Env.fixed { validResult [72, 105] samplePolygon with status := DecodeStatus.NotFound })
        (frameOf (.qt5 .Format_RGB32) 40 30 true)).emitted = some ScanResult.default :=
  ⟨by decide,
   slotScanFrame_invalid_outcome
     (Env.fixed { validResult [72, 105] samplePolygon with status := DecodeStatus.NotFound })
     (frameOf (.qt5 .Format_RGB32) 40 30 true) (by decide) (by decide)⟩

/-- C10: for a frame tagged `Format_Invalid` (or, in Qt 5, `NPixelFormats`) the run
maps the frame, unmaps it and emits the default result and makes no other call: the
engine is not invoked and the frame is not converted; no exception ends the run, and
`zxRes` is still the initial outcome `Result(DecodeStatus::FormatError)`, which is not
valid. -/
theorem slotScanFrame_invalid_tag (env : Env) (frame : VideoScannerFrame)
    (htag : isInvalidTag frame.pixelFormat = true) :
    (slotScanFrame env frame).calls
        = [Call.map, Call.unmap, Call.result ScanResult.default]
    ∧ (slotScanFrame env frame).descriptors = []
    ∧ (slotScanFrame env frame).fault = none
    ∧ (slotScanFrame env frame).zxRes = ZXResult.ofStatus DecodeStatus.FormatError
    ∧ (slotScanFrame env frame).zxRes.isValid = false
    ∧ (slotScanFrame env frame).emitted = some ScanResult.default := by
  have key : decodeFrame env frame
      = { frame := frame, zxRes := ZXResult.ofStatus DecodeStatus.FormatError,
          calls := [Call.map], fault := none, emitted := none } := by
    unfold decodeFrame switchPixelFormat
    cases hp : frame.pixelFormat with
    | qt5 tag =>
      rw [hp] at htag
      cases tag <;> simp [isInvalidTag] at htag <;> simp [switchQt5]
    | qt6 tag =>
      rw [hp] at htag
      cases tag <;> first | (simp [isInvalidTag] at htag; done) | simp [switchQt6]
  have hinv : (ZXResult.ofStatus DecodeStatus.FormatError).isValid = false := by decide
  simp [slotScanFrame, key, processResult, hinv, State.descriptors]

/-- C10 on the three tags: Qt 5 `Format_Invalid`, Qt 5 `NPixelFormats`, Qt 6
`Format_Invalid`. -/
theorem slotScanFrame_invalid_tag_witness :
    (slotScanFrame (Env.fixed (validResult [65] samplePolygon))
        (frameOf (.qt5 .Format_Invalid) 40 30 false)).calls
        = [Call.map, Call.unmap, Call.result ScanResult.default]
    ∧ (slotScanFrame (Env.fixed (validResult [65] samplePolygon))
        (frameOf (.qt5 .NPixelFormats) 40 30 false)).emitted = some ScanResult.default
    ∧ (slotScanFrame (Env.fixed (validResult [65] samplePolygon))
        (frameOf (.qt6 .Format_Invalid) 40 30 true)).zxRes.isValid = false :=
  ⟨(slotScanFrame_invalid_tag (Env.fixed (validResult [65] samplePolygon))
      (frameOf (.qt5 .Format_Invalid) 40 30 false) (by decide)).1,
   (slotScanFrame_invalid_tag (Env.fixed (validResult [65] samplePolygon))
      (frameOf (.qt5 .NPixelFormats) 40 30 false) (by decide)).2.2.2.2.2,
   (slotScanFrame_invalid_tag (Env.fixed (validResult [65] samplePolygon))
      (frameOf (.qt6 .Format_Invalid) 40 30 true) (by decide)).2.2.2.2.1⟩

/-! ## Hints and resource handling -/

/-- Calls the needs-conversion statements add: the conversion, then (unless it raised)
one engine invocation with the given hints. -/
theorem convertThenRead_calls (env : Env) (hints : DecodeHints) (s : State) :
    ∃ mid, (convertThenRead env hints s).calls = s.calls ++ mid
      ∧ ∀ c ∈ mid, c = Call.convertToImage ∨ ∃ iv, c = Call.ReadBarcode iv hints := by
  unfold convertThenRead callConvertToImage
  cases env.convertToImage s.frame with
  | error e => exact ⟨[Call.convertToImage], by simp, by simp⟩
  | ok f =>
    by_cases hf : s.fault.isSome
    · exact ⟨[Call.convertToImage], by simp [hf], by simp⟩
    · exact ⟨[Call.convertToImage, Call.ReadBarcode ⟨f.bits, f.width, f.height, .Lum, 0, 0⟩ hints],
        by simp [hf], by simp⟩

/-- Calls up to the switch, for every tag and whether or not a collaborator raises:
`map`, then only conversions and engine invocations, the latter with the hints of
lines 29 and 30. -/
theorem decodeFrame_calls_all (env : Env) (frame : VideoScannerFrame) :
    ∃ mid, (decodeFrame env frame).calls = Call.map :: mid
      ∧ ∀ c ∈ mid, c = Call.convertToImage
          ∨ ∃ iv, c = Call.ReadBarcode iv (scanHints env frame) := by
  have hid : ∀ s : State, ∃ mid, s.calls = s.calls ++ mid
      ∧ ∀ c ∈ mid, c = Call.convertToImage
          ∨ ∃ iv, c = Call.ReadBarcode iv (scanHints env frame) :=
    fun s => ⟨[], by simp, by simp⟩
  have hread : ∀ (iv : ImageView) (s : State),
      ∃ mid, (assignReadBarcode env (scanHints env frame) iv s).calls = s.calls ++ mid
      ∧ ∀ c ∈ mid, c = Call.convertToImage
          ∨ ∃ iv, c = Call.ReadBarcode iv (scanHints env frame) :=
    fun iv s => ⟨[Call.ReadBarcode iv (scanHints env frame)], by simp, by simp⟩
  have hconv := convertThenRead_calls env (scanHints env frame)
  have key : ∀ s : State, ∃ mid,
      (switchPixelFormat env (scanHints env frame) s).calls = s.calls ++ mid
      ∧ ∀ c ∈ mid, c = Call.convertToImage
          ∨ ∃ iv, c = Call.ReadBarcode iv (scanHints env frame) := by
    intro s
    unfold switchPixelFormat
    cases s.frame.pixelFormat with
    | qt5 tag =>
      cases tag <;> simp only [switchQt5] <;>
        first
        | exact hid _
        | exact hread _ _
        | exact hconv _
    | qt6 tag =>
      cases tag <;> simp only [switchQt6] <;>
        first
        | exact hid _
        | exact hread _ _
        | exact hconv _
  obtain ⟨mid, h1, h2⟩ := key
    { frame := frame, zxRes := ZXResult.ofStatus DecodeStatus.FormatError,
      calls := [Call.map], fault := none, emitted := none }
  exact ⟨mid, by simpa [decodeFrame] using h1, h2⟩

/-- Every hint set handed to the engine is the one built at lines 29 and 30. -/
theorem slotScanFrame_hints_mem (env : Env) (frame : VideoScannerFrame) (h : DecodeHints)
    (hmem : h ∈ (slotScanFrame env frame).hints) : h = scanHints env frame := by
  obtain ⟨mid, hmid, hall⟩ := decodeFrame_calls_all env frame
  obtain ⟨rest, hrest, hall2⟩ := slotScanFrame_calls env frame
  simp only [State.hints, List.mem_filterMap, hrest, hmid] at hmem
  obtain ⟨c, hc, hch⟩ := hmem
  simp only [List.cons_append, List.mem_cons, List.mem_append] at hc
  rcases hc with hc | hc | hc
  · subst hc; simp at hch
  · rcases hall c hc with h1 | ⟨iv, h1⟩
    · subst h1; simp at hch
    · subst h1; simpa using hch.symm
  · rcases hall2 c hc with h1 | ⟨r, h1⟩
    · subst h1; simp at hch
    · subst h1; simp at hch

/-- C11: when the frame carries no restriction (`Format::NoFormat`) every hint set
handed to the engine is `BarcodeFormats::all()`, so it is not the empty set unless
`all()` itself were; for every other restriction it is `Format::toZXing` of the
restriction.  The hint set does not depend on the pixel-format tag: runs on two frames
with the same restriction hand over the same hints.  A run on a tag that is not invalid
whose conversion (if the tag needs one) completes hands over exactly one hint set. -/
theorem slotScanFrame_hints (env : Env) (frame : VideoScannerFrame) :
    (frame.formats = Format.NoFormat →
        ∀ h ∈ (slotScanFrame env frame).hints,
          h.formats = env.allFormats
          ∧ (env.allFormats ≠ noBarcodeFormats → h.formats ≠ noBarcodeFormats))
    ∧ (frame.formats ≠ Format.NoFormat →
        ∀ h ∈ (slotScanFrame env frame).hints, h.formats = env.toZXing frame.formats)
    ∧ (∀ frame2 : VideoScannerFrame, frame2.formats = frame.formats →
        ∀ h ∈ (slotScanFrame env frame).hints,
          ∀ h2 ∈ (slotScanFrame env frame2).hints, h = h2)
    ∧ (isInvalidTag frame.pixelFormat = false →
        (needsConversion frame.pixelFormat = true → ∃ f, env.convertToImage frame = .ok f) →
        (slotScanFrame env frame).hints.length = 1) := by
  refine ⟨?_, ?_, ?_, ?_⟩
  · intro hno h hmem
    rw [slotScanFrame_hints_mem env frame h hmem]
    simp [scanHints, hno]
  · intro hsome h hmem
    rw [slotScanFrame_hints_mem env frame h hmem]
    simp [scanHints, hsome]
  · intro frame2 hf h hmem h2 hmem2
    rw [slotScanFrame_hints_mem env frame h hmem, slotScanFrame_hints_mem env frame2 h2 hmem2]
    simp [scanHints, hf]
  · intro htag hconv
    obtain ⟨iv, hiv⟩ := decodeFrame_calls env frame htag hconv
    obtain ⟨rest, hrest, hall⟩ := slotScanFrame_calls env frame
    have hr : rest.filterMap (fun c => match c with
        | .ReadBarcode _ h => some h
        | _ => none) = [] := by
      rw [List.filterMap_eq_nil_iff]
      intro c hc
      rcases hall c hc with h | ⟨r, h⟩ <;> subst h <;> rfl
    simp only [State.hints, hrest, hiv, List.filterMap_append, List.filterMap_cons, hr]
    by_cases hn : needsConversion frame.pixelFormat = true <;> simp [hn]

/-- C11 on an unrestricted frame and on a frame restricted to the set `5`: the hints
are `all()` (not empty) and the translation of `5`. -/
theorem slotScanFrame_hints_witness :
    (∀ h ∈ (slotScanFrame (Env.fixed (validResult [] samplePolygon))
        (frameOf (.qt5 .Format_RGB24) 40 30 false)).hints,
          h.formats = 0x3FFFF
          ∧ ((Env.fixed (validResult [] samplePolygon)).allFormats ≠ noBarcodeFormats →
              h.formats ≠ noBarcodeFormats))
    ∧ (∀ h ∈ (slotScanFrame (Env.fixed (validResult [] samplePolygon))
        { frameOf (.qt6 .Format_YUYV) 40 30 false with formats := 5 }).hints, h.formats = 5)
    ∧ (slotScanFrame (Env.fixed (validResult [] samplePolygon))
        (frameOf (.qt5 .Format_RGB24) 40 30 false)).hints.length = 1 :=
  ⟨(slotScanFrame_hints (Env.fixed (validResult [] samplePolygon))
      (frameOf (.qt5 .Format_RGB24) 40 30 false)).1 rfl,
   (slotScanFrame_hints (Env.fixed (validResult [] samplePolygon))
      { frameOf (.qt6 .Format_YUYV) 40 30 false with formats := 5 }).2.1 (by decide),
   (slotScanFrame_hints (Env.fixed (validResult [] samplePolygon))
      (frameOf (.qt5 .Format_RGB24) 40 30 false)).2.2.2 (by decide) (fun _ => ⟨_, rfl⟩)⟩

/-- C12 (the claim as stated fails): when the engine raises on a Y8 frame, or the
conversion raises on a JPEG frame, the run ends with the exception after `map` and the
failing call: the frame has been mapped once and is not unmapped. -/
theorem slotScanFrame_raise_leaves_mapped :
    (slotScanFrame (Env.engineRaises (validResult [] samplePolygon))
        (frameOf (.qt5 .Format_Y8) 40 30 false)).fault.isSome = true
    ∧ (slotScanFrame (Env.engineRaises (validResult [] samplePolygon))
        (frameOf (.qt5 .Format_Y8) 40 30 false)).calls
        = [Call.map, Call.ReadBarcode ⟨0, 40, 30, .Lum, 0, 0⟩ ⟨0x3FFFF⟩]
    ∧ (slotScanFrame (Env.engineRaises (validResult [] samplePolygon))
        (frameOf (.qt5 .Format_Y8) 40 30 false)).calls.count Call.map = 1
    ∧ (slotScanFrame (Env.engineRaises (validResult [] samplePolygon))
        (frameOf (.qt5 .Format_Y8) 40 30 false)).calls.count Call.unmap = 0
    ∧ (slotScanFrame (Env.conversionRaises (validResult [] samplePolygon))
        (frameOf (.qt6 .Format_Jpeg) 40 30 false)).fault.isSome = true
    ∧ (slotScanFrame (Env.conversionRaises (validResult [] samplePolygon))
        (frameOf (.qt6 .Format_Jpeg) 40 30 false)).calls = [Call.map, Call.convertToImage]
    ∧ (slotScanFrame (Env.conversionRaises (validResult [] samplePolygon))
        (frameOf (.qt6 .Format_Jpeg) 40 30 false)).calls.count Call.unmap = 0 := by
  decide

/-- C12 (amended): on every path on which neither the engine nor the conversion
raises (valid outcome, outcome not found, invalid tag) the frame is mapped exactly once
and unmapped exactly once; `map` is the first call, only conversions and engine
invocations lie between it and `unmap`, and `unmap` is followed only by the emission
of the result. -/
theorem slotScanFrame_map_unmap (env : Env) (frame : VideoScannerFrame)
    (hfault : (slotScanFrame env frame).fault = none) :
    (slotScanFrame env frame).calls.count Call.map = 1
    ∧ (slotScanFrame env frame).calls.count Call.unmap = 1
    ∧ ∃ mid r, (slotScanFrame env frame).calls
          = Call.map :: (mid ++ [Call.unmap, Call.result r])
        ∧ ∀ c ∈ mid, c = Call.convertToImage ∨ c.isReadBarcode = true := by
  obtain ⟨mid, hmid, hall⟩ := decodeFrame_calls_all env frame
  rw [slotScanFrame_fault] at hfault
  have hcalls : (slotScanFrame env frame).calls
      = Call.map :: (mid ++ [Call.unmap, Call.result
          (processResult env (decodeFrame env frame).zxRes (decodeFrame env frame).frame)]) := by
    unfold slotScanFrame
    simp [hfault, hmid]
  have hmap : mid.count Call.map = 0 := by
    rw [List.count_eq_zero]
    intro hmem
    rcases hall _ hmem with h | ⟨iv, h⟩ <;> cases h
  have hunmap : mid.count Call.unmap = 0 := by
    rw [List.count_eq_zero]
    intro hmem
    rcases hall _ hmem with h | ⟨iv, h⟩ <;> cases h
  refine ⟨?_, ?_, mid, _, hcalls, ?_⟩
  · rw [hcalls]
    simp [List.count_cons, List.count_append, hmap]
  · rw [hcalls]
    simp [List.count_cons, List.count_append, hunmap]
  · intro c hc
    rcases hall c hc with h | ⟨iv, h⟩
    · exact Or.inl h
    · exact Or.inr (by rw [h]; rfl)

/-- C12 (amended) on a run that finds nothing, on a valid outcome after a conversion
and on an invalid tag. -/
theorem slotScanFrame_map_unmap_witness :
    ((slotScanFrame (Env.fixed (ZXResult.ofStatus DecodeStatus.NotFound))
        (frameOf (.qt5 .Format_Y8) 40 30 false)).calls.count Call.map = 1
      ∧ (slotScanFrame (Env.fixed (ZXResult.ofStatus DecodeStatus.NotFound))
        (frameOf (.qt5 .Format_Y8) 40 30 false)).calls.count Call.unmap = 1)
    ∧ (slotScanFrame (Env.fixed (validResult [65] samplePolygon))
        (frameOf (.qt6 .Format_Jpeg) 40 30 false)).calls.count Call.unmap = 1
    ∧ (slotScanFrame (Env.fixed (validResult [65] samplePolygon))
        (frameOf (.qt6 .Format_Invalid) 40 30 false)).calls.count Call.unmap = 1 :=
  ⟨⟨(slotScanFrame_map_unmap (Env.fixed (ZXResult.ofStatus DecodeStatus.NotFound))
      (frameOf (.qt5 .Format_Y8) 40 30 false) (by decide)).1,
    (slotScanFrame_map_unmap (Env.fixed (ZXResult.ofStatus DecodeStatus.NotFound))
      (frameOf (.qt5 .Format_Y8) 40 30 false) (by decide)).2.1⟩,
   (slotScanFrame_map_unmap (Env.fixed (validResult [65] samplePolygon))
      (frameOf (.qt6 .Format_Jpeg) 40 30 false) (by decide)).2.1,
   (slotScanFrame_map_unmap (Env.fixed (validResult [65] samplePolygon))
      (frameOf (.qt6 .Format_Invalid) 40 30 false) (by decide)).2.1⟩

/-! ## Geometry of the emitted rectangle -/

/-- With small corners the unflipped rectangle runs from the smallest to the largest
corner coordinates. -/
theorem polygonRect_eq (p : Position) (hp : p.isSmall) :
    polygonRect p = ⟨p.minX, p.minY, p.maxX, p.maxY⟩ := by
  have hint : p.isInt := by
    intro c hc
    have := hp c hc
    simp only [Prison.isSmall, Prison.isInt, INT_MIN, INT_MAX] at this ⊢
    omega
  simp [polygonRect, polygonExtent_eq p hint, QRect.ofPoints]

/-- Bounds on the extrema of a small polygon. -/
theorem polygon_extrema_small (p : Position) (hp : p.isSmall) :
    isSmall p.minX ∧ isSmall p.minY ∧ isSmall p.maxX ∧ isSmall p.maxY
    ∧ p.minX ≤ p.maxX ∧ p.minY ≤ p.maxY := by
  simp only [Position.isSmall, Position.corners, List.mem_cons, List.mem_singleton,
    List.not_mem_nil, or_false, forall_eq_or_imp, forall_eq, Prison.isSmall] at hp
  simp only [Prison.isSmall, Position.minX, Position.minY, Position.maxX, Position.maxY]
  omega

/-- The rectangle assigned to `res->boundingRect` when no `int` overflows. -/
theorem scanBoundingRect_eq (f : VideoScannerFrame) (p : Position) (hp : p.isSmall)
    (hH : f.isVerticallyFlipped = true → isSmall f.height) :
    scanBoundingRect f p
      = if f.isVerticallyFlipped then
          ⟨p.minX, f.height - 1 - p.maxY, p.maxX, f.height - 1 - p.minY⟩
        else ⟨p.minX, p.minY, p.maxX, p.maxY⟩ := by
  obtain ⟨h1, h2, h3, h4, h5, h6⟩ := polygon_extrema_small p hp
  unfold scanBoundingRect
  rw [polygonRect_eq p hp]
  cases hf : f.isVerticallyFlipped with
  | false => simp
  | true =>
    simp only [if_true]
    exact flipTransform_mapRect _ _ _ _ _ (hH hf) h1 h2 h3 h4 h5 h6

/-- The flip keeps the columns of a rectangle, whatever the height of the frame and
the rows of the rectangle. -/
theorem flipTransform_mapRect_columns (H x1 y1 x2 y2 : Int)
    (hx1 : isSmall x1) (hx2 : isSmall x2) (hx : x1 ≤ x2) :
    ((flipTransform H).mapRect ⟨x1, y1, x2, y2⟩).x1 = x1
    ∧ ((flipTransform H).mapRect ⟨x1, y1, x2, y2⟩).x2 = x2 := by
  unfold isSmall at *
  have wr : ∀ v : Int, -2147483648 ≤ v ∧ v ≤ 2147483647 → wrapInt v = v := fun v hv =>
    wrapInt_of_isInt (by unfold isInt INT_MIN INT_MAX; exact hv)
  have hw : wrapInt (x2 - x1 + 1) = x2 - x1 + 1 := wr _ (by omega)
  have e1 : wrapInt (1 * x1 + 0) = x1 := by rw [wr _ (by omega)]; omega
  have e3 : wrapInt (1 * (x2 - x1 + 1)) = x2 - x1 + 1 := by rw [wr _ (by omega)]; omega
  have e7 : wrapInt (x1 + (x2 - x1 + 1) - 1) = x2 := by rw [wr _ (by omega)]; omega
  have n1 : ¬ (x2 - x1 + 1 < 0) := by omega
  have ht : flipTransform H = ⟨1, -1, 0, -wrapInt (-H)⟩ := by
    simp [flipTransform, QTransform.identity, QTransform.scale, QTransform.translate]
  rw [ht]
  simp only [QTransform.mapRect, QRect.x, QRect.y, QRect.width, QRect.height, qRound,
    QRect.ofSize]
  rw [if_neg (by decide)]
  simp only [hw, e1, e3, n1, if_false, e7, and_self]

/-- The loop visits the corners in an order that does not matter. -/
theorem polygonExtent_perm (p q : Position) (h : p.corners.Perm q.corners) :
    polygonExtent p = polygonExtent q := by
  unfold polygonExtent
  apply List.Perm.foldl_eq' h
  intro a _ b _ e
  simp only [Extent.step, Extent.mk.injEq]
  omega

/-- C13: for a valid outcome and either value of the flip flag the emitted result
differs from the default-constructed one: its payload is set, as text or as binary,
and (when no `int` overflows: small corners, and a small height if the frame is
flipped) its rectangle has width and height at least 1, whereas the default rectangle
has width and height 0.  This includes an outcome with an empty text whose four
corners coincide. -/
theorem slotScanFrame_valid_not_default (env : Env) (frame : VideoScannerFrame)
    (hfault : (slotScanFrame env frame).fault = none)
    (hvalid : (slotScanFrame env frame).zxRes.isValid = true) :
    ∃ r, (slotScanFrame env frame).emitted = some r
      ∧ r ≠ ScanResult.default
      ∧ r.content ≠ ScanResult.default.content
      ∧ (r.hasText = true ∨ r.hasBinary = true)
      ∧ ((slotScanFrame env frame).zxRes.position.isSmall →
          ((slotScanFrame env frame).frame.isVerticallyFlipped = true →
            isSmall (slotScanFrame env frame).frame.height) →
          1 ≤ r.boundingRect.width ∧ 1 ≤ r.boundingRect.height)
      ∧ ScanResult.default.boundingRect.width = 0
      ∧ ScanResult.default.boundingRect.height = 0 := by
  refine ⟨_, slotScanFrame_emitted env frame hfault, ?_⟩
  generalize (slotScanFrame env frame).zxRes = zx at hvalid ⊢
  generalize (slotScanFrame env frame).frame = f
  have hcontent : (processResult env zx f).content = scanContent env zx.text := by
    simp [processResult, hvalid]
  have hset : scanContent env zx.text ≠ QVariant.invalid := by
    unfold scanContent
    split <;> simp
  refine ⟨?_, ?_, ?_, ?_, by decide, by decide⟩
  · intro h
    rw [h] at hcontent
    exact hset hcontent.symm
  · rw [hcontent]
    exact hset
  · simp only [ScanResult.hasText, ScanResult.hasBinary, hcontent]
    unfold scanContent
    by_cases hc : (hasWideChars zx.text || !hasControlChars zx.text) = true
    · simp only [hc, if_true, true_or]
    · simp only [hc, if_false, or_true, Bool.false_eq_true]
  · intro hp hH
    obtain ⟨h1, h2, h3, h4, h5, h6⟩ := polygon_extrema_small zx.position hp
    have hrect : (processResult env zx f).boundingRect = scanBoundingRect f zx.position := by
      simp [processResult, hvalid]
    rw [hrect, scanBoundingRect_eq f zx.position hp hH]
    simp only [Prison.isSmall] at h1 h2 h3 h4
    cases hf : f.isVerticallyFlipped with
    | false =>
      simp only [QRect.width, QRect.height, wrapInt]
      constructor <;> simp <;> omega
    | true =>
      have hh := hH hf
      simp only [Prison.isSmall] at hh
      simp only [QRect.width, QRect.height, wrapInt]
      constructor <;> simp <;> omega

/-- C13 on an outcome with an empty text whose four corners are all (7, 7), on a
flipped frame: the result is not the default one and its rectangle is 1 by 1. -/
theorem slotScanFrame_valid_not_default_witness :
    (slotScanFrame (Env.fixed (validResult [] ⟨⟨7, 7⟩, ⟨7, 7⟩, ⟨7, 7⟩, ⟨7, 7⟩⟩))
        (frameOf (.qt5 .Format_Y8) 40 30 true)).zxRes.text = []
    ∧ ∃ r, (slotScanFrame (Env.fixed (validResult [] ⟨⟨7, 7⟩, ⟨7, 7⟩, ⟨7, 7⟩, ⟨7, 7⟩⟩))
        (frameOf (.qt5 .Format_Y8) 40 30 true)).emitted = some r
      ∧ r ≠ ScanResult.default
      ∧ r.content ≠ ScanResult.default.content
      ∧ (r.hasText = true ∨ r.hasBinary = true)
      ∧ ((slotScanFrame (Env.fixed (validResult [] ⟨⟨7, 7⟩, ⟨7, 7⟩, ⟨7, 7⟩, ⟨7, 7⟩⟩))
            (frameOf (.qt5 .Format_Y8) 40 30 true)).zxRes.position.isSmall →
          ((slotScanFrame (Env.fixed (validResult [] ⟨⟨7, 7⟩, ⟨7, 7⟩, ⟨7, 7⟩, ⟨7, 7⟩⟩))
            (frameOf (.qt5 .Format_Y8) 40 30 true)).frame.isVerticallyFlipped = true →
            isSmall (slotScanFrame (Env.fixed (validResult [] ⟨⟨7, 7⟩, ⟨7, 7⟩, ⟨7, 7⟩, ⟨7, 7⟩⟩))
              (frameOf (.qt5 .Format_Y8) 40 30 true)).frame.height) →
          1 ≤ r.boundingRect.width ∧ 1 ≤ r.boundingRect.height)
      ∧ ScanResult.default.boundingRect.width = 0
      ∧ ScanResult.default.boundingRect.height = 0 :=
  ⟨by decide,
   slotScanFrame_valid_not_default
     (Env.fixed (validResult [] ⟨⟨7, 7⟩, ⟨7, 7⟩, ⟨7, 7⟩, ⟨7, 7⟩⟩))
     (frameOf (.qt5 .Format_Y8) 40 30 true) (by decide) (by decide)⟩

/-- C14: a run on a flipped frame and a run on an unflipped frame that end with the
same valid outcome emit the same payload (same classification, same content) and the
same symbology, for every frame height; with small corner coordinates their rectangles
have the same left and the same right x-coordinate. -/
theorem slotScanFrame_flip_rect_only (env : Env) (frame frame2 : VideoScannerFrame)
    (hfault : (slotScanFrame env frame).fault = none)
    (hfault2 : (slotScanFrame env frame2).fault = none)
    (hzx : (slotScanFrame env frame2).zxRes = (slotScanFrame env frame).zxRes)
    (hvalid : (slotScanFrame env frame).zxRes.isValid = true)
    (hflip : (slotScanFrame env frame).frame.isVerticallyFlipped = true)
    (hnot : (slotScanFrame env frame2).frame.isVerticallyFlipped = false) :
    ∃ r r2, (slotScanFrame env frame).emitted = some r
      ∧ (slotScanFrame env frame2).emitted = some r2
      ∧ r.content = r2.content
      ∧ r.hasText = r2.hasText
      ∧ r.hasBinary = r2.hasBinary
      ∧ r.format = r2.format
      ∧ ((slotScanFrame env frame).zxRes.position.isSmall →
          r.boundingRect.left = r2.boundingRect.left
          ∧ r.boundingRect.right = r2.boundingRect.right) := by
  refine ⟨_, _, slotScanFrame_emitted env frame hfault,
    slotScanFrame_emitted env frame2 hfault2, ?_⟩
  rw [hzx]
  generalize (slotScanFrame env frame).zxRes = zx at hvalid ⊢
  generalize (slotScanFrame env frame).frame = f at hflip ⊢
  generalize (slotScanFrame env frame2).frame = f2 at hnot ⊢
  refine ⟨?_, ?_, ?_, ?_, ?_⟩
  · simp [processResult, hvalid]
  · simp [processResult, hvalid, ScanResult.hasText]
  · simp [processResult, hvalid, ScanResult.hasBinary]
  · simp [processResult, hvalid]
  · intro hp
    obtain ⟨h1, h2, h3, h4, h5, h6⟩ := polygon_extrema_small zx.position hp
    have hcol := flipTransform_mapRect_columns f.height zx.position.minX zx.position.minY
      zx.position.maxX zx.position.maxY h1 h3 h5
    simp only [processResult, hvalid, if_true, scanBoundingRect, hflip, hnot,
      polygonRect_eq zx.position hp, QRect.left, QRect.right, Bool.false_eq_true, if_false]
    exact hcol

/-- C14 on the sample polygon with the text 72, 105 on a frame of height 30. -/
theorem slotScanFrame_flip_rect_only_witness :
    ∃ r r2, (slotScanFrame (Env.fixed (validResult [72, 105] samplePolygon))
        (frameOf (.qt5 .Format_Y8) 40 30 true)).emitted = some r
      ∧ (slotScanFrame (Env.fixed (validResult [72, 105] samplePolygon))
        (frameOf (.qt5 .Format_Y8) 40 30 false)).emitted = some r2
      ∧ r.content = r2.content
      ∧ r.hasText = r2.hasText
      ∧ r.hasBinary = r2.hasBinary
      ∧ r.format = r2.format
      ∧ ((slotScanFrame (Env.fixed (validResult [72, 105] samplePolygon))
            (frameOf (.qt5 .Format_Y8) 40 30 true)).zxRes.position.isSmall →
          r.boundingRect.left = r2.boundingRect.left
          ∧ r.boundingRect.right = r2.boundingRect.right) :=
  slotScanFrame_flip_rect_only (Env.fixed (validResult [72, 105] samplePolygon))
    (frameOf (.qt5 .Format_Y8) 40 30 true) (frameOf (.qt5 .Format_Y8) 40 30 false)
    (by decide) (by decide) (by decide) (by decide) (by decide) (by decide)

/-- C16: two runs that end with valid outcomes whose polygons have the same four
corners in any order, on frames with the same flip flag and height, emit the same
bounding rectangle, flipped or not. -/
theorem slotScanFrame_rect_order_independent (env env2 : Env)
    (frame frame2 : VideoScannerFrame)
    (hfault : (slotScanFrame env frame).fault = none)
    (hfault2 : (slotScanFrame env2 frame2).fault = none)
    (hvalid : (slotScanFrame env frame).zxRes.isValid = true)
    (hvalid2 : (slotScanFrame env2 frame2).zxRes.isValid = true)
    (hperm : (slotScanFrame env frame).zxRes.position.corners.Perm
      (slotScanFrame env2 frame2).zxRes.position.corners)
    (hflip : (slotScanFrame env2 frame2).frame.isVerticallyFlipped
      = (slotScanFrame env frame).frame.isVerticallyFlipped)
    (hheight : (slotScanFrame env2 frame2).frame.height
      = (slotScanFrame env frame).frame.height) :
    ∃ r r2, (slotScanFrame env frame).emitted = some r
      ∧ (slotScanFrame env2 frame2).emitted = some r2
      ∧ r.boundingRect = r2.boundingRect := by
  refine ⟨_, _, slotScanFrame_emitted env frame hfault,
    slotScanFrame_emitted env2 frame2 hfault2, ?_⟩
  generalize (slotScanFrame env frame).zxRes = zx at hvalid hperm ⊢
  generalize (slotScanFrame env2 frame2).zxRes = zx2 at hvalid2 hperm ⊢
  generalize (slotScanFrame env frame).frame = f at hflip hheight ⊢
  generalize (slotScanFrame env2 frame2).frame = f2 at hflip hheight ⊢
  simp only [processResult, hvalid, hvalid2, if_true, scanBoundingRect, polygonRect,
    polygonExtent_perm zx.position zx2.position hperm, hflip, hheight]

/-- C16 on the sample polygon and the same corners in the order 2, 0, 3, 1, on
flipped frames of height 30. -/
theorem slotScanFrame_rect_order_independent_witness :
    samplePolygon.corners.Perm
      (⟨⟨10, 20⟩, ⟨2, 5⟩, ⟨2, 20⟩, ⟨10, 5⟩⟩ : Position).corners
    ∧ ∃ r r2, (slotScanFrame (Env.fixed (validResult [] samplePolygon))
        (frameOf (.qt5 .Format_Y8) 40 30 true)).emitted = some r
      ∧ (slotScanFrame (Env.fixed (validResult [] ⟨⟨10, 20⟩, ⟨2, 5⟩, ⟨2, 20⟩, ⟨10, 5⟩⟩))
        (frameOf (.qt5 .Format_Y8) 40 30 true)).emitted = some r2
      ∧ r.boundingRect = r2.boundingRect :=
  ⟨by decide,
   slotScanFrame_rect_order_independent (Env.fixed (validResult [] samplePolygon))
     (Env.fixed (validResult [] ⟨⟨10, 20⟩, ⟨2, 5⟩, ⟨2, 20⟩, ⟨10, 5⟩⟩))
     (frameOf (.qt5 .Format_Y8) 40 30 true) (frameOf (.qt5 .Format_Y8) 40 30 true)
     (by decide) (by decide) (by decide) (by decide) (by decide) (by decide) (by decide)⟩

/-- C17: when a run on a flipped frame of height `H` and a run on an unflipped frame
end with the same valid outcome (corner coordinates and `H` of magnitude below
`2 ^ 30`), the rectangle emitted for the flipped frame is normalized (left at most
right, top at most bottom) and has the width and the height of the rectangle emitted
for the unflipped frame. -/
theorem slotScanFrame_flip_keeps_size (env : Env) (frame frame2 : VideoScannerFrame)
    (hfault : (slotScanFrame env frame).fault = none)
    (hfault2 : (slotScanFrame env frame2).fault = none)
    (hzx : (slotScanFrame env frame2).zxRes = (slotScanFrame env frame).zxRes)
    (hvalid : (slotScanFrame env frame).zxRes.isValid = true)
    (hflip : (slotScanFrame env frame).frame.isVerticallyFlipped = true)
    (hnot : (slotScanFrame env frame2).frame.isVerticallyFlipped = false)
    (hH : isSmall (slotScanFrame env frame).frame.height)
    (hp : (slotScanFrame env frame).zxRes.position.isSmall) :
    ∃ r r2, (slotScanFrame env frame).emitted = some r
      ∧ (slotScanFrame env frame2).emitted = some r2
      ∧ r.boundingRect.left ≤ r.boundingRect.right
      ∧ r.boundingRect.top ≤ r.boundingRect.bottom
      ∧ r.boundingRect.width = r2.boundingRect.width
      ∧ r.boundingRect.height = r2.boundingRect.height := by
  refine ⟨_, _, slotScanFrame_emitted env frame hfault,
    slotScanFrame_emitted env frame2 hfault2, ?_⟩
  rw [hzx]
  generalize (slotScanFrame env frame).zxRes = zx at hvalid hp ⊢
  generalize (slotScanFrame env frame).frame = f at hflip hH ⊢
  generalize (slotScanFrame env frame2).frame = f2 at hnot ⊢
  obtain ⟨h1, h2, h3, h4, h5, h6⟩ := polygon_extrema_small zx.position hp
  have hr : (processResult env zx f).boundingRect
      = ⟨zx.position.minX, f.height - 1 - zx.position.maxY,
         zx.position.maxX, f.height - 1 - zx.position.minY⟩ := by
    simp [processResult, hvalid, scanBoundingRect_eq f zx.position hp (fun _ => hH), hflip]
  have hr2 : (processResult env zx f2).boundingRect
      = ⟨zx.position.minX, zx.position.minY, zx.position.maxX, zx.position.maxY⟩ := by
    simp [processResult, hvalid,
      scanBoundingRect_eq f2 zx.position hp (fun h => by rw [hnot] at h; cases h), hnot]
  rw [hr, hr2]
  simp only [QRect.left, QRect.right, QRect.top, QRect.bottom, QRect.width, QRect.height]
  refine ⟨h5, by omega, trivial, ?_⟩
  congr 1
  omega

/-- C17 on the sample polygon and height 30: the flipped rectangle (2,9)-(10,24) is
normalized and is 9 wide and 16 high like the unflipped one. -/
theorem slotScanFrame_flip_keeps_size_witness :
    (slotScanFrame (Env.fixed (validResult [] samplePolygon))
        (frameOf (.qt6 .Format_Y8) 40 30 false)).emitted.map (fun r => r.boundingRect.width)
      = some 9
    ∧ (slotScanFrame (Env.fixed (validResult [] samplePolygon))
        (frameOf (.qt6 .Format_Y8) 40 30 false)).emitted.map (fun r => r.boundingRect.height)
      = some 16
    ∧ ∃ r r2, (slotScanFrame (Env.fixed (validResult [] samplePolygon))
        (frameOf (.qt6 .Format_Y8) 40 30 true)).emitted = some r
      ∧ (slotScanFrame (Env.fixed (validResult [] samplePolygon))
        (frameOf (.qt6 .Format_Y8) 40 30 false)).emitted = some r2
      ∧ r.boundingRect.left ≤ r.boundingRect.right
      ∧ r.boundingRect.top ≤ r.boundingRect.bottom
      ∧ r.boundingRect.width = r2.boundingRect.width
      ∧ r.boundingRect.height = r2.boundingRect.height :=
  ⟨by decide, by decide,
   slotScanFrame_flip_keeps_size (Env.fixed (validResult [] samplePolygon))
     (frameOf (.qt6 .Format_Y8) 40 30 true) (frameOf (.qt6 .Format_Y8) 40 30 false)
     (by decide) (by decide) (by decide) (by decide) (by decide) (by decide) (by decide)
     (by decide)⟩

/-! ## Descriptors of the directly sampled tags -/

/-- Calls up to the switch for a tag outside the needs-conversion list: `map`, then one
engine invocation per descriptor. -/
theorem decodeFrame_calls_direct (env : Env) (frame : VideoScannerFrame)
    (hdirect : needsConversion frame.pixelFormat = false) :
    (decodeFrame env frame).calls
      = Call.map :: (decodeFrame env frame).descriptors.map
          (fun iv => Call.ReadBarcode iv (scanHints env frame)) := by
  unfold decodeFrame switchPixelFormat
  cases hp : frame.pixelFormat with
  | qt5 tag =>
    rw [hp] at hdirect
    cases tag <;> simp [needsConversion] at hdirect <;> simp [switchQt5, State.descriptors]
  | qt6 tag =>
    rw [hp] at hdirect
    cases tag <;> simp [needsConversion] at hdirect <;> simp [switchQt6, State.descriptors]

/-- A run on a tag outside the needs-conversion list never converts the frame. -/
theorem slotScanFrame_no_conversion (env : Env) (frame : VideoScannerFrame)
    (hdirect : needsConversion frame.pixelFormat = false) :
    Call.convertToImage ∉ (slotScanFrame env frame).calls := by
  obtain ⟨rest, hrest, hall⟩ := slotScanFrame_calls env frame
  rw [hrest, decodeFrame_calls_direct env frame hdirect]
  intro hmem
  simp only [List.cons_append, List.mem_cons, List.mem_append, List.mem_map,
    reduceCtorEq, false_or, and_false, exists_false] at hmem
  rcases hall _ hmem with h | ⟨r, h⟩ <;> cases h

/-- The one descriptor of a directly sampled tag: it starts at or after `bits()`, has
the width of the frame and the default row stride, and its offset, pixel stride and
bytes read per pixel fit in the bytes per pixel of the tag. -/
theorem decodeFrame_descriptor_direct (env : Env) (frame : VideoScannerFrame)
    (hvalid : isInvalidTag frame.pixelFormat = false)
    (hdirect : needsConversion frame.pixelFormat = false) :
    ∃ iv n, (decodeFrame env frame).descriptors = [iv]
      ∧ bytesPerPixel frame.pixelFormat = some n
      ∧ iv.width = frame.width ∧ iv.height = frame.height ∧ iv.rowStride = 0
      ∧ 0 ≤ iv.data - frame.bits
      ∧ iv.data - frame.bits + iv.format.bytesRead ≤ n
      ∧ 0 ≤ iv.effPixStride ∧ iv.effPixStride ≤ n := by
  unfold decodeFrame switchPixelFormat
  cases hp : frame.pixelFormat with
  | qt5 tag =>
    rw [hp] at hvalid hdirect
    cases tag <;> simp [needsConversion] at hdirect <;> simp [isInvalidTag] at hvalid <;>
      (simp only [switchQt5, State.descriptors, assignReadBarcode_calls, List.cons_append,
         List.nil_append, List.filterMap_cons, List.filterMap_nil]
       refine ⟨_, _, rfl, rfl, rfl, rfl, rfl, ?_, ?_, ?_, ?_⟩ <;>
         simp [ImageView.effPixStride, ImageFormat.PixStride, ImageFormat.bytesRead])
  | qt6 tag =>
    rw [hp] at hvalid hdirect
    cases tag <;> simp [needsConversion] at hdirect <;> simp [isInvalidTag] at hvalid <;>
      (simp only [switchQt6, State.descriptors, assignReadBarcode_calls, List.cons_append,
         List.nil_append, List.filterMap_cons, List.filterMap_nil]
       refine ⟨_, _, rfl, rfl, rfl, rfl, rfl, ?_, ?_, ?_, ?_⟩ <;>
         simp [ImageView.effPixStride, ImageFormat.PixStride, ImageFormat.bytesRead])

/-- A byte at `k + y * (w * ps) + x * ps + c` lies in a plane of `w * h * n` bytes when
the pixel is inside the frame, the stride is at most `n` and `k + c` is below `n`. -/
theorem offset_in_plane (w h x y n ps k c : Int) (hx0 : 0 ≤ x) (hx : x < w)
    (hy0 : 0 ≤ y) (hy : y < h) (hps0 : 0 ≤ ps) (hps : ps ≤ n) (hk : 0 ≤ k) (hc : 0 ≤ c)
    (hkc : k + c < n) :
    0 ≤ k + y * (w * ps) + x * ps + c ∧ k + y * (w * ps) + x * ps + c < w * h * n := by
  have hw : 0 ≤ w := by omega
  have hm0 : 0 ≤ y * w + x := by positivity
  have hm : y * w + x + 1 ≤ w * h := by nlinarith
  have h1 : ps * (y * w + x) ≤ n * (y * w + x) := mul_le_mul_of_nonneg_right hps hm0
  have h2 : n * (y * w + x + 1) ≤ n * (w * h) := mul_le_mul_of_nonneg_left hm (by omega)
  have h3 : 0 ≤ ps * (y * w + x) := mul_nonneg hps0 hm0
  constructor
  · nlinarith
  · nlinarith

/-- C15: for the packed YUV tags the one descriptor is single-channel luma, built
without conversion, and the byte it addresses for pixel `(x, y)` is the Y byte of that
pixel in a tightly packed plane: offset `4 * (y * width + x) + 1` for AYUV, AYUV444 and
their premultiplied variants, `3 * (y * width + x)` for YUV444,
`2 * (y * width + x) + 1` for UYVY and `2 * (y * width + x)` for YUYV. -/
theorem slotScanFrame_packed_luma (env : Env) (frame : VideoScannerFrame) (n k : Int)
    (h : packedLuma frame.pixelFormat = some (n, k)) :
    ∃ iv, (slotScanFrame env frame).descriptors = [iv]
      ∧ iv.format = ImageFormat.Lum
      ∧ Call.convertToImage ∉ (slotScanFrame env frame).calls
      ∧ ∀ x y : Int, iv.offset frame x y = n * (y * frame.width + x) + k := by
  have key : needsConversion frame.pixelFormat = false
      ∧ ∃ iv, (decodeFrame env frame).descriptors = [iv]
        ∧ iv.format = ImageFormat.Lum
        ∧ ∀ x y : Int, iv.offset frame x y = n * (y * frame.width + x) + k := by
    unfold decodeFrame switchPixelFormat
    cases hp : frame.pixelFormat with
    | qt5 tag =>
      rw [hp] at h
      cases tag <;> simp [packedLuma] at h <;>
        (obtain ⟨rfl, rfl⟩ := h
         simp only [switchQt5, State.descriptors, assignReadBarcode_calls, List.cons_append,
           List.nil_append, List.filterMap_cons, List.filterMap_nil]
         refine ⟨rfl, _, rfl, rfl, ?_⟩
         intro x y
         simp [ImageView.offset, ImageView.addr, ImageView.effRowStride,
           ImageView.effPixStride]
         ring)
    | qt6 tag =>
      rw [hp] at h
      cases tag <;> simp [packedLuma] at h <;>
        (obtain ⟨rfl, rfl⟩ := h
         simp only [switchQt6, State.descriptors, assignReadBarcode_calls, List.cons_append,
           List.nil_append, List.filterMap_cons, List.filterMap_nil]
         refine ⟨rfl, _, rfl, rfl, ?_⟩
         intro x y
         simp [ImageView.offset, ImageView.addr, ImageView.effRowStride,
           ImageView.effPixStride]
         ring)
  obtain ⟨hdirect, iv, hiv, hfmt, hoff⟩ := key
  exact ⟨iv, by rw [slotScanFrame_descriptors, hiv], hfmt,
    slotScanFrame_no_conversion env frame hdirect, hoff⟩

/-- C15 on a Qt 6 UYVY frame of width 40: pixel (3, 2) is read at offset
`2 * (2 * 40 + 3) + 1 = 167`. -/
theorem slotScanFrame_packed_luma_witness :
    packedLuma (frameOf (.qt6 .Format_UYVY) 40 30 false).pixelFormat = some (2, 1)
    ∧ ∃ iv, (slotScanFrame (Env.fixed (validResult [] samplePolygon))
        (frameOf (.qt6 .Format_UYVY) 40 30 false)).descriptors = [iv]
      ∧ iv.format = ImageFormat.Lum
      ∧ Call.convertToImage ∉ (slotScanFrame (Env.fixed (validResult [] samplePolygon))
        (frameOf (.qt6 .Format_UYVY) 40 30 false)).calls
      ∧ ∀ x y : Int, iv.offset (frameOf (.qt6 .Format_UYVY) 40 30 false) x y
          = 2 * (y * (frameOf (.qt6 .Format_UYVY) 40 30 false).width + x) + 1 :=
  ⟨by decide,
   slotScanFrame_packed_luma (Env.fixed (validResult [] samplePolygon))
     (frameOf (.qt6 .Format_UYVY) 40 30 false) 2 1 (by decide)⟩

/-- C18: every packed RGB tag is handed to the engine without conversion, at
`frame.bits()` with default strides, in the layout the table assigns to it (XRGB, BGRX,
XBGR, RGBX, RGB or BGR); the bytes per pixel of that layout are the bytes per pixel of
the tag, so pixel `(x, y)` is read at that many times `y * width + x`. -/
theorem slotScanFrame_packed_rgb (env : Env) (frame : VideoScannerFrame) (fmt : ImageFormat)
    (h : packedRGBLayout frame.pixelFormat = some fmt) :
    (slotScanFrame env frame).descriptors
        = [⟨frame.bits, frame.width, frame.height, fmt, 0, 0⟩]
    ∧ Call.convertToImage ∉ (slotScanFrame env frame).calls
    ∧ bytesPerPixel frame.pixelFormat = some fmt.PixStride
    ∧ fmt ≠ ImageFormat.Lum
    ∧ ∀ x y : Int,
        (⟨frame.bits, frame.width, frame.height, fmt, 0, 0⟩ : ImageView).offset frame x y
          = fmt.PixStride * (y * frame.width + x) := by
  have key : needsConversion frame.pixelFormat = false
      ∧ (decodeFrame env frame).descriptors
          = [⟨frame.bits, frame.width, frame.height, fmt, 0, 0⟩]
      ∧ bytesPerPixel frame.pixelFormat = some fmt.PixStride
      ∧ fmt ≠ ImageFormat.Lum := by
    unfold decodeFrame switchPixelFormat
    cases hp : frame.pixelFormat with
    | qt5 tag =>
      rw [hp] at h
      cases tag <;> simp [packedRGBLayout] at h <;>
        (subst h
         simp only [switchQt5, State.descriptors, assignReadBarcode_calls, List.cons_append,
           List.nil_append, List.filterMap_cons, List.filterMap_nil]
         exact ⟨rfl, trivial, rfl, by decide⟩)
    | qt6 tag =>
      rw [hp] at h
      cases tag <;> simp [packedRGBLayout] at h <;>
        (subst h
         simp only [switchQt6, State.descriptors, assignReadBarcode_calls, List.cons_append,
           List.nil_append, List.filterMap_cons, List.filterMap_nil]
         exact ⟨rfl, trivial, rfl, by decide⟩)
  obtain ⟨hdirect, hdesc, hbpp, hlum⟩ := key
  refine ⟨by rw [slotScanFrame_descriptors, hdesc],
    slotScanFrame_no_conversion env frame hdirect, hbpp, hlum, ?_⟩
  intro x y
  simp [ImageView.offset, ImageView.addr, ImageView.effRowStride, ImageView.effPixStride]
  ring

/-- C18 on a Qt 5 RGB24 frame (3 bytes per pixel, layout RGB) and a Qt 6 BGRA8888
frame (4 bytes per pixel, layout BGRX). -/
theorem slotScanFrame_packed_rgb_witness :
    ((slotScanFrame (Env.fixed (validResult [] samplePolygon))
        (frameOf (.qt5 .Format_RGB24) 40 30 false)).descriptors
        = [⟨0, 40, 30, .RGB, 0, 0⟩]
      ∧ bytesPerPixel (.qt5 .Format_RGB24) = some 3)
    ∧ ((slotScanFrame (Env.fixed (validResult [] samplePolygon))
        (frameOf (.qt6 .Format_BGRA8888) 40 30 false)).descriptors
        = [⟨0, 40, 30, .BGRX, 0, 0⟩]
      ∧ bytesPerPixel (.qt6 .Format_BGRA8888) = some 4) :=
  ⟨⟨(slotScanFrame_packed_rgb (Env.fixed (validResult [] samplePolygon))
      (frameOf (.qt5 .Format_RGB24) 40 30 false) .RGB (by decide)).1,
    (slotScanFrame_packed_rgb (Env.fixed (validResult [] samplePolygon))
      (frameOf (.qt5 .Format_RGB24) 40 30 false) .RGB (by decide)).2.2.1⟩,
   ⟨(slotScanFrame_packed_rgb (Env.fixed (validResult [] samplePolygon))
      (frameOf (.qt6 .Format_BGRA8888) 40 30 false) .BGRX (by decide)).1,
    (slotScanFrame_packed_rgb (Env.fixed (validResult [] samplePolygon))
      (frameOf (.qt6 .Format_BGRA8888) 40 30 false) .BGRX (by decide)).2.2.1⟩⟩

/-- C19: for every directly sampled tag (not invalid, not in the needs-conversion
list) the bytes per pixel of the first plane are defined, and with a tightly packed
first plane of `width * height * bytes per pixel` bytes every byte the one descriptor
makes the engine read for a pixel `(x, y)` inside the frame (the address of the pixel
plus the channel bytes of the layout) lies at an offset from `frame.bits()` that is at
least 0 and below the size of the plane, also for the descriptors built from
`frame.bits() + 1`. -/
theorem slotScanFrame_reads_in_plane (env : Env) (frame : VideoScannerFrame)
    (hvalid : isInvalidTag frame.pixelFormat = false)
    (hdirect : needsConversion frame.pixelFormat = false) :
    ∃ iv n, (slotScanFrame env frame).descriptors = [iv]
      ∧ bytesPerPixel frame.pixelFormat = some n
      ∧ ∀ x y c : Int, 0 ≤ x → x < frame.width → 0 ≤ y → y < frame.height →
          0 ≤ c → c < iv.format.bytesRead →
          0 ≤ iv.offset frame x y + c
          ∧ iv.offset frame x y + c < frame.width * frame.height * n := by
  obtain ⟨iv, n, hdesc, hbpp, hw, _, hrs, hk0, hk, hps0, hps⟩ :=
    decodeFrame_descriptor_direct env frame hvalid hdirect
  refine ⟨iv, n, by rw [slotScanFrame_descriptors, hdesc], hbpp, ?_⟩
  intro x y c hx0 hx hy0 hy hc0 hc
  have hb := offset_in_plane frame.width frame.height x y n iv.effPixStride
    (iv.data - frame.bits) c hx0 hx hy0 hy hps0 hps hk0 hc0 (by omega)
  have hoff : iv.offset frame x y + c
      = iv.data - frame.bits + y * (frame.width * iv.effPixStride) + x * iv.effPixStride
        + c := by
    simp only [ImageView.offset, ImageView.addr, ImageView.effRowStride, hrs, hw, ne_eq,
      not_true_eq_false, if_false]
    ring
  rw [hoff]
  exact hb

/-- C19 on a Qt 5 Y16 frame (descriptor at `bits() + 1`) and a Qt 6 AYUV frame. -/
theorem slotScanFrame_reads_in_plane_witness :
    (∃ iv n, (slotScanFrame (Env.fixed (validResult [] samplePolygon))
        (frameOf (.qt5 .Format_Y16) 40 30 false)).descriptors = [iv]
      ∧ bytesPerPixel (frameOf (.qt5 .Format_Y16) 40 30 false).pixelFormat = some n
      ∧ ∀ x y c : Int, 0 ≤ x → x < (frameOf (.qt5 .Format_Y16) 40 30 false).width →
          0 ≤ y → y < (frameOf (.qt5 .Format_Y16) 40 30 false).height →
          0 ≤ c → c < iv.format.bytesRead →
          0 ≤ iv.offset (frameOf (.qt5 .Format_Y16) 40 30 false) x y + c
          ∧ iv.offset (frameOf (.qt5 .Format_Y16) 40 30 false) x y + c
            < (frameOf (.qt5 .Format_Y16) 40 30 false).width
              * (frameOf (.qt5 .Format_Y16) 40 30 false).height * n)
    ∧ (slotScanFrame (Env.fixed (validResult [] samplePolygon))
        (frameOf (.qt6 .Format_AYUV) 40 30 false)).descriptors = [⟨0 + 1, 40, 30, .Lum, 0, 4⟩]
    ∧ (⟨0 + 1, 40, 30, .Lum, 0, 4⟩ : ImageView).offset
        (frameOf (.qt6 .Format_AYUV) 40 30 false) 39 29 = 40 * 30 * 4 - 3 :=
  ⟨slotScanFrame_reads_in_plane (Env.fixed (validResult [] samplePolygon))
     (frameOf (.qt5 .Format_Y16) 40 30 false) (by decide) (by decide),
   by decide, by decide⟩

end Prison
